import Mathlib

/-!
Verification of the stratavote motion-lifecycle engine against its source.

The definitions below are a shallow embedding of the JavaScript sources:

* `src/db.js` — sqlite schema, prepared queries, `submitVote`, `getMotionStats`;
* `src/services/notificationWorker.js` — backoff, early completion, sweep;
* `src/services/resultsEmailService.js` — final outcome computation;
* `src/server.js` — vote eligibility and the vote / revoke routes.

Timestamps are integers (milliseconds, as in JavaScript `Date.getTime()`);
machine floats in majority-ratio comparisons are replaced by the exact
integer comparisons they compute on vote counts (see the comments at the
definitions).  sqlite transactions executed by the single-connection
better-sqlite3 driver are serialized, so stateful operations are modelled
as functions on an explicit store; a thrown error inside a transaction
rolls it back, modelled by `Except` returning the untouched store.
-/

namespace StrataVote

/-- Lifecycle states of a motion, from the CHECK constraint on
`motions.status` in the src/db.js schema. -/
inductive MotionStatus
| Draft
| Open
| Closed
| Published
deriving DecidableEq, Repr

/-- Required-majority rule, from the CHECK constraint on
`motions.required_majority` in the src/db.js schema. -/
inductive Majority
| Simple
| TwoThirds
deriving DecidableEq, Repr

/-- Motion outcomes, from the CHECK constraint on `motions.outcome` in the
src/db.js schema. -/
inductive Outcome
| Passed
| Failed
| Tie
| Cancelled
deriving DecidableEq, Repr

/-- Voter-token status, from the CHECK constraint on `voter_tokens.status`
in the src/db.js schema. -/
inductive TokenStatus
| Active
| Used
| Revoked
deriving DecidableEq, Repr

/-- Close reasons recorded by the completion sweeper
(src/services/notificationWorker.js lines 49, 54, 63, 66, 90). -/
inductive CloseReason
| early_threshold_passed
| early_threshold_failed
| all_votes_cast
| end_time_reached
deriving DecidableEq, Repr

/-- A row of the `motions` table (src/db.js schema), logic-relevant columns.
`options` stands for the parsed `options_json` column. -/
structure Motion where
  id : Nat
  title : String
  options : List String
  open_at : Int
  close_at : Int
  status : MotionStatus
  required_majority : Majority
  outcome : Option Outcome
deriving DecidableEq, Repr

/-- A row of the `voter_tokens` table (src/db.js schema), logic-relevant
columns. -/
structure Token where
  id : Nat
  motion_id : Nat
  token : String
  recipient_email : Option String
  status : TokenStatus
  used_at : Option Int
deriving DecidableEq, Repr

/-- A row of the `ballots` table (src/db.js schema), logic-relevant columns.
The table carries a UNIQUE constraint on `voter_token_id`, enforced in
`ballotCreate` below. -/
structure Ballot where
  motion_id : Nat
  voter_token_id : Nat
  choice : String
  submitted_at : Int
deriving DecidableEq, Repr

/-- Status of a notification-outbox row. `Failed`-but-retryable is
represented as `Pending` with a future `next_attempt_at`. -/
inductive NotifStatus
| Pending
| Sent
deriving DecidableEq, Repr

/-- A notification-outbox row, as read and written by
src/services/notificationWorker.js (`attempts`, `next_attempt_at`,
status transitions). -/
structure NotifRow where
  id : Nat
  motion_id : Nat
  status : NotifStatus
  attempts : Nat
  next_attempt_at : Int
  last_error : Option String
deriving DecidableEq, Repr

/-- One row of the GROUP BY choice aggregation
(src/db.js `ballotQueries.getResultsByMotion`). -/
structure ResultRow where
  choice : String
  count : Nat
deriving DecidableEq, Repr

/-- The record shape returned by `getMotionStats` (src/db.js lines 245-258). -/
structure MotionStats where
  eligible : Nat
  voted : Nat
  remaining : Int
  results : List ResultRow
deriving DecidableEq, Repr

/-- From src/services/notificationWorker.js `computeBackoffMinutes`
(lines 18-25).  The JavaScript argument is a number; the worker only ever
passes `attempts + 1 ≥ 1`, and `attempts ≤ 0` is the first branch, so a
natural-number argument covers every reachable call. -/
def computeBackoffMinutes (attempts : Nat) : Nat :=
  if attempts ≤ 0 then 1
  else if attempts = 1 then 1
  else if attempts = 2 then 5
  else if attempts = 3 then 15
  else if attempts = 4 then 30
  else 60

/-- From src/services/notificationWorker.js `addMinutes` (lines 14-16);
timestamps in milliseconds. -/
def addMinutes (date : Int) (minutes : Nat) : Int :=
  date + (minutes : Int) * 60 * 1000

/-- JavaScript String.prototype.toLowerCase over the characters of a
string: two strings compare equal after toLowerCase exactly when their
lower-cased character lists are equal. -/
def lowerChars (s : String) : List Char :=
  s.data.map Char.toLower

/-- From src/services/notificationWorker.js `getCount` (lines 27-33): the
count of the first results row whose choice matches the label
case-insensitively, else 0. -/
def getCount (stats : MotionStats) (label : String) : Nat :=
  match stats.results.find? (fun row => lowerChars row.choice == lowerChars label) with
  | some row => row.count
  | none => 0

/-- Result shape of `evaluateEarlyCompletion`: the JavaScript object
either `\x7bcomplete: false\x7d` or complete with an outcome and a reason. -/
structure EarlyResult where
  complete : Bool
  outcome : Option Outcome
  reason : Option CloseReason
deriving DecidableEq, Repr

/-- From src/services/notificationWorker.js `evaluateEarlyCompletion`
(lines 35-70).  `stats.eligible || 0`, `stats.voted || 0` and
`stats.remaining || 0` are identities on numbers (falsy 0 maps to 0).
`Math.ceil((eligible * 2) / 3)` over naturals is `(2 * eligible + 2) / 3`:
the double division of these small integer counts is correctly rounded and
its ceiling equals the exact rational ceiling. -/
def evaluateEarlyCompletion (motion : Motion) (stats : MotionStats) : EarlyResult :=
  let eligible := stats.eligible
  let voted := stats.voted
  let remaining := stats.remaining
  if eligible ≤ 0 then ⟨false, none, none⟩
  else if voted ≤ 0 then ⟨false, none, none⟩
  else
    let yes := getCount stats "Yes"
    let no := getCount stats "No"
    match motion.required_majority with
    | .TwoThirds =>
      let threshold := (2 * eligible + 2) / 3
      if yes ≥ threshold then ⟨true, some .Passed, some .early_threshold_passed⟩
      else if (yes : Int) + remaining < (threshold : Int) then
        ⟨true, some .Failed, some .early_threshold_failed⟩
      else ⟨false, none, none⟩
    | .Simple =>
      let threshold := eligible / 2 + 1
      if yes ≥ threshold then ⟨true, some .Passed, some .early_threshold_passed⟩
      else if no ≥ threshold then ⟨true, some .Failed, some .early_threshold_failed⟩
      else ⟨false, none, none⟩

/-- Lookup in the JavaScript `counts` object that
src/services/resultsEmailService.js builds by `counts[row.choice] = row.count`:
assignment is last-write-wins, so the value at a key is the count of the
last results row whose choice is exactly that key. -/
def countsGet (results : List ResultRow) (key : String) : Option Nat :=
  match results.reverse.find? (fun r => r.choice == key) with
  | some r => some r.count
  | none => none

/-- The JavaScript expression `a || b` for a possibly-absent numeric `a`:
`b` when `a` is absent or zero, else `a`. -/
def orFalsy (a : Option Nat) (b : Nat) : Nat :=
  match a with
  | some n => if n = 0 then b else n
  | none => b

/-- The source's local `const yes = counts.Yes || counts.YES || 0`
(src/services/resultsEmailService.js line 49). -/
def yesCountJs (stats : MotionStats) : Nat :=
  orFalsy (countsGet stats.results "Yes") (orFalsy (countsGet stats.results "YES") 0)

/-- The source's local `const no = counts.No || counts.NO || 0`
(src/services/resultsEmailService.js line 50). -/
def noCountJs (stats : MotionStats) : Nat :=
  orFalsy (countsGet stats.results "No") (orFalsy (countsGet stats.results "NO") 0)

/-- From src/services/resultsEmailService.js `computeOutcomeFromResults`
(lines 40-63).  The float comparisons `yes / total >= 2 / 3` and
`yes / total > 0.5` are expressed exactly over the integer counts as
`3 * yes ≥ 2 * total` and `2 * yes > total`: IEEE division is correctly
rounded and monotone, `0.5` and the quotients at stake are exact at these
count magnitudes, so the double comparisons decide the same predicate. -/
def computeOutcomeFromResults (motion : Motion) (stats : MotionStats) : Outcome :=
  match motion.outcome with
  | some o => o
  | none =>
    let yes := yesCountJs stats
    let no := noCountJs stats
    if yes = no then .Tie
    else
      let total := yes + no
      if total = 0 then .Failed
      else
        match motion.required_majority with
        | .TwoThirds => if 3 * yes ≥ 2 * total then .Passed else .Failed
        | .Simple => if 2 * yes > total then .Passed else .Failed

/-- Result shape of `validateVoteEligibility`: valid flag plus the specific
user-facing message on rejection. -/
structure Eligibility where
  valid : Bool
  message : Option String
deriving DecidableEq, Repr

/-- From src/server.js `validateVoteEligibility` (lines 572-610); `now` is
the clock value the source reads at entry. -/
def validateVoteEligibility (motion : Motion) (token : Option Token) (now : Int) :
    Eligibility :=
  match token with
  | none => ⟨false, some "Invalid voting link."⟩
  | some t =>
    if t.status = .Used then ⟨false, some "This voting link has already been used."⟩
    else if t.status = .Revoked then ⟨false, some "This voting link has been revoked."⟩
    else if t.status ≠ .Active then ⟨false, some "This voting link is not active."⟩
    else if t.motion_id ≠ motion.id then
      ⟨false, some "Invalid voting link for this motion."⟩
    else if motion.status ≠ .Open then
      ⟨false, some "Voting is not currently open for this motion."⟩
    else if now < motion.open_at then ⟨false, some "Voting has not yet opened."⟩
    else if now > motion.close_at then ⟨false, some "Voting has closed."⟩
    else ⟨true, none⟩

/-- The mutable store: the four sqlite tables the lifecycle engine touches. -/
structure DB where
  motions : List Motion
  tokens : List Token
  ballots : List Ballot
  notifications : List NotifRow
deriving DecidableEq, Repr

/-- From src/db.js `tokenQueries.getById`: SELECT * FROM voter_tokens WHERE id. -/
def getTokenById (s : DB) (tokenId : Nat) : Option Token :=
  s.tokens.find? (fun t => t.id == tokenId)

/-- From src/db.js `tokenQueries.getByToken`: SELECT * FROM voter_tokens
WHERE token (the token column is UNIQUE). -/
def getTokenByValue (s : DB) (tok : String) : Option Token :=
  s.tokens.find? (fun t => t.token == tok)

/-- From src/db.js `motionQueries.getById`: SELECT * FROM motions WHERE id. -/
def getMotionById (s : DB) (motionId : Nat) : Option Motion :=
  s.motions.find? (fun m => m.id == motionId)

/-- From src/db.js `tokenQueries.markUsed`: UPDATE voter_tokens SET
status = ?, used_at = ? WHERE id = ?. -/
def markUsed (s : DB) (st : TokenStatus) (now : Int) (tokenId : Nat) : DB :=
  { s with tokens := s.tokens.map (fun t =>
      if t.id == tokenId then { t with status := st, used_at := some now } else t) }

/-- From src/db.js `tokenQueries.revoke`: UPDATE voter_tokens SET
status = ? WHERE id = ? — no condition on the current status. -/
def revokeTokenRow (s : DB) (st : TokenStatus) (tokenId : Nat) : DB :=
  { s with tokens := s.tokens.map (fun t =>
      if t.id == tokenId then { t with status := st } else t) }

/-- From src/db.js `motionQueries.updateStatus`: UPDATE motions SET
status = ? WHERE id = ?. -/
def updateMotionStatus (s : DB) (st : MotionStatus) (motionId : Nat) : DB :=
  { s with motions := s.motions.map (fun m =>
      if m.id == motionId then { m with status := st } else m) }

/-- From src/db.js `ballotQueries.create`: INSERT INTO ballots, respecting
the table's UNIQUE constraint on voter_token_id — inserting a second ballot
for the same token raises a constraint error. -/
def ballotCreate (s : DB) (motionId tokenId : Nat) (choice : String) (now : Int) :
    Except String DB :=
  if s.ballots.any (fun b => b.voter_token_id == tokenId) then
    .error "UNIQUE constraint failed: ballots.voter_token_id"
  else
    .ok { s with ballots := s.ballots ++ [⟨motionId, tokenId, choice, now⟩] }

/-- From src/db.js `submitVote` (lines 222-242): one transaction that
re-reads the token, requires it to be Active, inserts the ballot and flips
the token to Used; any thrown error rolls the whole transaction back,
modelled by `.error` leaving the store untouched. -/
def submitVote (s : DB) (motionId tokenId : Nat) (choice : String) (now : Int) :
    Except String DB :=
  match getTokenById s tokenId with
  | none => .error "Token is not active"
  | some t =>
    if t.status ≠ .Active then .error "Token is not active"
    else
      match ballotCreate s motionId tokenId choice now with
      | .error e => .error e
      | .ok s1 => .ok (markUsed s1 .Used now tokenId)

/-- Stable insertion of a results row into a count-descending list: the
row goes after every row with at least its count, so equal counts keep
their original order. -/
def insertByCountDesc (x : ResultRow) : List ResultRow → List ResultRow
  | [] => [x]
  | y :: ys => if x.count ≤ y.count then y :: insertByCountDesc x ys
      else x :: y :: ys

/-- Stable sort of result rows by descending count (insertion sort). -/
def sortByCountDesc (l : List ResultRow) : List ResultRow :=
  l.foldl (fun acc x => insertByCountDesc x acc) []

/-- From src/db.js `ballotQueries.getResultsByMotion`: SELECT choice,
COUNT(*) FROM ballots WHERE motion_id GROUP BY choice ORDER BY count DESC. -/
def getResultsByMotion (s : DB) (motionId : Nat) : List ResultRow :=
  let bs := s.ballots.filter (fun b => b.motion_id == motionId)
  let choices := (bs.map (fun b => b.choice)).eraseDups
  let rows := choices.map (fun c =>
    ResultRow.mk c ((bs.filter (fun b => b.choice == c)).length))
  sortByCountDesc rows

/-- From src/db.js `getMotionStats` (lines 245-258): eligible counts the
motion's non-Revoked tokens, voted counts its ballots, remaining is their
difference (an Int: it can go negative if a Used token is later revoked). -/
def getMotionStats (s : DB) (motionId : Nat) : MotionStats :=
  let eligible := (s.tokens.filter
    (fun t => t.motion_id == motionId && t.status != TokenStatus.Revoked)).length
  let voted := (s.ballots.filter (fun b => b.motion_id == motionId)).length
  ⟨eligible, voted, (eligible : Int) - (voted : Int), getResultsByMotion s motionId⟩

/-- Modelled from the spec: `ensureResultsEmailNotification` is imported by
src/services/notificationWorker.js from `../db`, but its definition is not
among the provided sources.  Spec section 4.4: insert a Pending row with
attempts = 0 and next_attempt_at = now iff no row exists yet for that
motion id; otherwise no-op. -/
def ensureResultsEmailNotification (s : DB) (motionId : Nat) (now : Int) : DB :=
  if s.notifications.any (fun n => n.motion_id == motionId) then s
  else
    { s with notifications := s.notifications ++
        [⟨s.notifications.length, motionId, .Pending, 0, now, none⟩] }

/-- Modelled from the spec: `markNotificationSent` is imported by
src/services/notificationWorker.js from `../db`, but its definition is not
among the provided sources.  Spec section 4.5 step 4: on success mark the
row Sent (terminal). -/
def markNotificationSent (s : DB) (notifId : Nat) : DB :=
  { s with notifications := s.notifications.map (fun n =>
      if n.id == notifId then { n with status := .Sent } else n) }

/-- Modelled from the spec: `markNotificationFailed` is imported by
src/services/notificationWorker.js from `../db`, but its definition is not
among the provided sources.  Spec section 4.5 step 5: store the new attempt
count and next_attempt_at, record the failure reason, row remains Pending. -/
def markNotificationFailed (s : DB) (notifId : Nat) (attempts : Nat)
    (nextAttemptAt : Int) (reason : String) : DB :=
  { s with notifications := s.notifications.map (fun n =>
      if n.id == notifId then
        { n with attempts := attempts, next_attempt_at := nextAttemptAt,
                 last_error := some reason }
      else n) }

/-- From src/services/notificationWorker.js `closeMotionIfEligible`
(lines 72-101).  The argument is the motion row the sweep query read (the
source's null check never fires on query rows); the function reads stats
from the shared store, decides by time, full turnout or locked early
outcome, and on closing updates the status and ensures the outbox row.
Returns the updated store and the recorded close reason when it closed. -/
def closeMotionIfEligible (s : DB) (motion : Motion) (now : Int) :
    DB × Option CloseReason :=
  if motion.status ≠ .Open then (s, none)
  else
    let stats := getMotionStats s motion.id
    let closeByTime := decide (now ≥ motion.close_at)
    let closeByAllVoted := decide (stats.remaining ≤ 0) && decide (stats.eligible > 0)
    let early := evaluateEarlyCompletion motion stats
    let closeByEarlyOutcome := early.complete
    if !closeByTime && !closeByAllVoted && !closeByEarlyOutcome then (s, none)
    else
      let s1 := updateMotionStatus s .Closed motion.id
      let reason := if closeByEarlyOutcome then early.reason
        else if closeByAllVoted then some .all_votes_cast
        else some .end_time_reached
      let s2 := ensureResultsEmailNotification s1 motion.id now
      (s2, reason)

/-- From src/services/notificationWorker.js `sweepAndEnqueueCompletedMotions`
(lines 103-134).  Each open motion's close is wrapped in its own
transaction inside try/catch; `fails` is the oracle of motion ids whose
unit of work raises this tick, in which case that transaction rolls back
(store unchanged for it) and the loop continues with the next motion.  The
second loop backfills outbox rows for already Closed or Published motions,
again per-motion inside try/catch. -/
def sweepAndEnqueueCompletedMotions (s : DB) (now : Int) (fails : Nat → Bool) : DB :=
  let openMotions := s.motions.filter (fun m => m.status == MotionStatus.Open)
  let s1 := openMotions.foldl
    (fun st m => if fails m.id then st else (closeMotionIfEligible st m now).1) s
  let closedMotions := s1.motions.filter (fun m =>
    m.status == MotionStatus.Closed || m.status == MotionStatus.Published)
  closedMotions.foldl
    (fun st m => if fails m.id then st else ensureResultsEmailNotification st m.id now) s1

/-- Result rendered by the public vote route: success flag plus message. -/
structure VoteRouteResult where
  success : Bool
  message : String
deriving DecidableEq, Repr

/-- From src/server.js `app.post /vote/:motionId` (lines 663-718): missing
fields, motion lookup, token lookup, `validateVoteEligibility`, choice
membership in the motion's options, then `submitVote`; a throw from
`submitVote` is caught and rendered as a generic error with the store as
the rolled-back transaction left it.  The token arm that is unreachable
when validation passed renders the validation message shape. -/
def postVote (s : DB) (motionId : Nat) (tokenValue : String) (choice : String)
    (now : Int) : DB × VoteRouteResult :=
  if tokenValue = "" ∨ choice = "" then (s, ⟨false, "Missing required fields."⟩)
  else
    match getMotionById s motionId with
    | none => (s, ⟨false, "Motion not found."⟩)
    | some motion =>
      let tokenRecord := getTokenByValue s tokenValue
      let validation := validateVoteEligibility motion tokenRecord now
      if validation.valid = false then (s, ⟨false, validation.message.getD ""⟩)
      else if choice ∉ motion.options then (s, ⟨false, "Invalid choice."⟩)
      else
        match tokenRecord with
        | none => (s, ⟨false, "Invalid voting link."⟩)
        | some t =>
          match submitVote s motion.id t.id choice now with
          | .ok s1 =>
            (s1, ⟨true,
              "Your vote has been recorded successfully. Thank you for participating."⟩)
          | .error _ =>
            (s, ⟨false,
              "An error occurred while recording your vote. Please contact support."⟩)

/-- Result of the admin revoke route. -/
inductive RevokeResult
| notFound
| redirected (motionId : Nat)
deriving DecidableEq, Repr

/-- From src/server.js `app.post /admin/tokens/:tokenId/revoke`
(lines 1120-1135): after an existence check the handler runs
`tokenQueries.revoke` unconditionally — it never requires the current
status to be Active. -/
def postRevokeToken (s : DB) (tokenId : Nat) : DB × RevokeResult :=
  match getTokenById s tokenId with
  | none => (s, .notFound)
  | some t => (revokeTokenRow s .Revoked tokenId, .redirected t.motion_id)

/-- Outcome of one delivery attempt: `sendResultsEmailForMotion` returned
sent, returned a skip with a reason string, or threw. -/
inductive DeliveryResult
| sent
| skipped (reason : String)
| errored (message : String)
deriving DecidableEq, Repr

/-- From src/services/notificationWorker.js `processPendingResultsEmails`,
per-row loop body (lines 140-185), with the delivery attempt's outcome
passed in: success marks the row Sent; a skip or a thrown error increments
the attempt counter and schedules the next attempt after
`computeBackoffMinutes (attempts + 1)` minutes. -/
def processNotificationRow (s : DB) (notif : NotifRow) (now : Int)
    (result : DeliveryResult) : DB :=
  match result with
  | .sent => markNotificationSent s notif.id
  | .skipped reason =>
    markNotificationFailed s notif.id (notif.attempts + 1)
      (addMinutes now (computeBackoffMinutes (notif.attempts + 1))) reason
  | .errored message =>
    markNotificationFailed s notif.id (notif.attempts + 1)
      (addMinutes now (computeBackoffMinutes (notif.attempts + 1))) message

/-- Sequential execution of N racing `submitVote` transactions on one
token: the single-connection better-sqlite3 driver serializes transactions,
so any interleaving is some order of the N commits.  Returns the final
store and each transaction's result in order (`none` = success,
`some msg` = the thrown message). -/
def runSubmits (s : DB) (motionId tokenId : Nat) (choices : List String)
    (now : Int) : DB × List (Option String) :=
  match choices with
  | [] => (s, [])
  | c :: rest =>
    match submitVote s motionId tokenId c now with
    | .ok s1 =>
      let p := runSubmits s1 motionId tokenId rest now
      (p.1, none :: p.2)
    | .error e =>
      let p := runSubmits s motionId tokenId rest now
      (p.1, some e :: p.2)

/-! ## Theorems -/

/-- C8: the retry-backoff function maps attempt counts 1, 2, 3 and 4 to
delays of 1, 5, 15 and 30 minutes and every count of 5 or more to 60
minutes; after a skipped or failed delivery attempt the row's attempts
counter is incremented by one and next_attempt_at becomes now plus the
delay (in milliseconds) for the new count, the row keeping its Pending
status, with no maximum attempt cap. -/
theorem backoff_schedule_and_retry_update
    (a : Nat) (ha : 5 ≤ a)
    (s : DB) (notif : NotifRow) (now : Int) (reason msg : String)
    (hmem : notif ∈ s.notifications) (hpend : notif.status = .Pending) :
    computeBackoffMinutes 1 = 1 ∧ computeBackoffMinutes 2 = 5 ∧
    computeBackoffMinutes 3 = 15 ∧ computeBackoffMinutes 4 = 30 ∧
    computeBackoffMinutes a = 60 ∧
    ({ notif with
        attempts := notif.attempts + 1,
        next_attempt_at :=
          now + (computeBackoffMinutes (notif.attempts + 1) : Int) * 60 * 1000,
        last_error := some reason } ∈
      (processNotificationRow s notif now (.skipped reason)).notifications) ∧
    ({ notif with
        attempts := notif.attempts + 1,
        next_attempt_at :=
          now + (computeBackoffMinutes (notif.attempts + 1) : Int) * 60 * 1000,
        last_error := some msg } ∈
      (processNotificationRow s notif now (.errored msg)).notifications) ∧
    NotifRow.status { notif with
        attempts := notif.attempts + 1,
        next_attempt_at :=
          now + (computeBackoffMinutes (notif.attempts + 1) : Int) * 60 * 1000,
        last_error := some reason } = .Pending := by
  refine ⟨rfl, rfl, rfl, rfl, ?_, ?_, ?_, hpend⟩
  · unfold computeBackoffMinutes
    split_ifs <;> omega
  · have h := List.mem_map_of_mem
      (fun n => if n.id == notif.id then
        { n with
          attempts := notif.attempts + 1,
          next_attempt_at := addMinutes now (computeBackoffMinutes (notif.attempts + 1)),
          last_error := some reason } else n) hmem
    simpa [processNotificationRow, markNotificationFailed, addMinutes] using h
  · have h := List.mem_map_of_mem
      (fun n => if n.id == notif.id then
        { n with
          attempts := notif.attempts + 1,
          next_attempt_at := addMinutes now (computeBackoffMinutes (notif.attempts + 1)),
          last_error := some msg } else n) hmem
    simpa [processNotificationRow, markNotificationFailed, addMinutes] using h

/-- Witness for C8: the schedule and the bookkeeping at a concrete row with
2 earlier attempts, at attempt count 7, at time 1000. -/
theorem backoff_schedule_and_retry_update_witness :
    computeBackoffMinutes 7 = 60 ∧
    ({ id := 0, motion_id := 1, status := NotifStatus.Pending, attempts := 3,
       next_attempt_at := 1000 + (computeBackoffMinutes 3 : Int) * 60 * 1000,
       last_error := some "skip" } ∈
      (processNotificationRow
        ⟨[], [], [], [⟨0, 1, .Pending, 2, 0, none⟩]⟩
        ⟨0, 1, .Pending, 2, 0, none⟩ 1000 (.skipped "skip")).notifications) := by
  have h := backoff_schedule_and_retry_update 7 (by decide)
    ⟨[], [], [], [⟨0, 1, .Pending, 2, 0, none⟩]⟩
    ⟨0, 1, .Pending, 2, 0, none⟩ 1000 "skip" "err"
    (by simp) rfl
  exact ⟨h.2.2.2.2.1, h.2.2.2.2.2.1⟩

/-- C5 counterexample: with no administrator outcome and zero votes cast,
`computeOutcomeFromResults` returns Tie — not Failed as the claim states —
for a TwoThirds motion as well as for a Simple one, and a TwoThirds motion
with equal nonzero Yes and No counts also yields Tie: the `yes === no`
check precedes both the zero-total check and the TwoThirds branch. -/
theorem computeOutcome_tie_counterexample :
    computeOutcomeFromResults
      ⟨2, "t", ["Yes", "No"], 0, 100, .Closed, .TwoThirds, none⟩
      ⟨6, 0, 6, []⟩ = .Tie ∧
    computeOutcomeFromResults
      ⟨1, "t", ["Yes", "No"], 0, 100, .Closed, .Simple, none⟩
      ⟨6, 0, 6, []⟩ = .Tie ∧
    computeOutcomeFromResults
      ⟨2, "t", ["Yes", "No"], 0, 100, .Closed, .TwoThirds, none⟩
      ⟨6, 6, 0, [⟨"Yes", 3⟩, ⟨"No", 3⟩]⟩ = .Tie ∧
    Outcome.Tie ≠ Outcome.Failed := by
  refine ⟨?_, ?_, ?_, by decide⟩ <;> decide

/-- C5 amended: final outcome evaluation returns the administrator-set
outcome whenever present; otherwise equal Yes and No counts — including
both zero — resolve to Tie under either majority rule; with unequal
counts, a TwoThirds motion is Passed exactly when the Yes fraction of
(Yes+No) is at least 2/3 and Failed otherwise, and a Simple motion is
Passed when Yes has more votes than No and Failed when No has more. -/
theorem computeOutcome_characterization
    (o : Outcome) (mAdmin mTT mS : Motion) (statsEq stats : MotionStats)
    (hA : mAdmin.outcome = some o)
    (hTTn : mTT.outcome = none) (hTTm : mTT.required_majority = .TwoThirds)
    (hSn : mS.outcome = none) (hSm : mS.required_majority = .Simple)
    (heq : yesCountJs statsEq = noCountJs statsEq)
    (hne : yesCountJs stats ≠ noCountJs stats) :
    computeOutcomeFromResults mAdmin statsEq = o ∧
    computeOutcomeFromResults mTT statsEq = .Tie ∧
    computeOutcomeFromResults mS statsEq = .Tie ∧
    computeOutcomeFromResults mTT stats =
      (if 3 * yesCountJs stats ≥ 2 * (yesCountJs stats + noCountJs stats)
        then .Passed else .Failed) ∧
    computeOutcomeFromResults mS stats =
      (if noCountJs stats < yesCountJs stats then .Passed else .Failed) := by
  refine ⟨?_, ?_, ?_, ?_, ?_⟩
  · simp [computeOutcomeFromResults, hA]
  · simp [computeOutcomeFromResults, hTTn, heq]
  · simp [computeOutcomeFromResults, hSn, heq]
  · have htot : ¬ (yesCountJs stats + noCountJs stats = 0) := by omega
    simp only [computeOutcomeFromResults, hTTn, hTTm, if_neg hne, if_neg htot]
  · have htot : ¬ (yesCountJs stats + noCountJs stats = 0) := by omega
    simp only [computeOutcomeFromResults, hSn, hSm, if_neg hne, if_neg htot]
    by_cases h : noCountJs stats < yesCountJs stats
    · rw [if_pos h, if_pos (by omega)]
    · rw [if_neg h, if_neg (by omega)]

/-- Witness for C5's amended theorem at concrete motions and tallies. -/
theorem computeOutcome_characterization_witness :
    computeOutcomeFromResults
      ⟨3, "t", ["Yes", "No"], 0, 100, .Published, .Simple, some .Cancelled⟩
      ⟨4, 4, 0, [⟨"Yes", 2⟩, ⟨"No", 2⟩]⟩ = .Cancelled ∧
    computeOutcomeFromResults
      ⟨2, "t", ["Yes", "No"], 0, 100, .Closed, .TwoThirds, none⟩
      ⟨4, 4, 0, [⟨"Yes", 2⟩, ⟨"No", 2⟩]⟩ = .Tie ∧
    computeOutcomeFromResults
      ⟨2, "t", ["Yes", "No"], 0, 100, .Closed, .TwoThirds, none⟩
      ⟨6, 6, 0, [⟨"Yes", 4⟩, ⟨"No", 2⟩]⟩ =
      (if 3 * yesCountJs ⟨6, 6, 0, [⟨"Yes", 4⟩, ⟨"No", 2⟩]⟩ ≥
          2 * (yesCountJs ⟨6, 6, 0, [⟨"Yes", 4⟩, ⟨"No", 2⟩]⟩ +
            noCountJs ⟨6, 6, 0, [⟨"Yes", 4⟩, ⟨"No", 2⟩]⟩)
        then .Passed else .Failed) := by
  have h := computeOutcome_characterization .Cancelled
    ⟨3, "t", ["Yes", "No"], 0, 100, .Published, .Simple, some .Cancelled⟩
    ⟨2, "t", ["Yes", "No"], 0, 100, .Closed, .TwoThirds, none⟩
    ⟨1, "t", ["Yes", "No"], 0, 100, .Closed, .Simple, none⟩
    ⟨4, 4, 0, [⟨"Yes", 2⟩, ⟨"No", 2⟩]⟩
    ⟨6, 6, 0, [⟨"Yes", 4⟩, ⟨"No", 2⟩]⟩
    rfl rfl rfl rfl rfl (by decide) (by decide)
  exact ⟨h.1, h.2.1, h.2.2.2.1⟩

/-- C3: for a Simple-majority motion with at least one eligible voter and
at least one cast ballot (counts consistent: the Yes and No tallies are
among the cast ballots and turnout does not exceed eligibility), the
early-completion projection is complete with outcome Passed exactly when
Yes reaches floor(eligible/2) + 1, complete with outcome Failed exactly
when No reaches that threshold, and otherwise not complete; with zero
eligible voters or zero cast ballots it never reports complete. -/
theorem early_completion_simple_characterization
    (motion : Motion) (stats zstats : MotionStats)
    (hmaj : motion.required_majority = .Simple)
    (he : 1 ≤ stats.eligible) (hv : 1 ≤ stats.voted)
    (hsum : getCount stats "Yes" + getCount stats "No" ≤ stats.voted)
    (hve : stats.voted ≤ stats.eligible)
    (hz : zstats.eligible = 0 ∨ zstats.voted = 0) :
    (evaluateEarlyCompletion motion stats =
        ⟨true, some .Passed, some .early_threshold_passed⟩ ↔
      stats.eligible / 2 + 1 ≤ getCount stats "Yes") ∧
    (evaluateEarlyCompletion motion stats =
        ⟨true, some .Failed, some .early_threshold_failed⟩ ↔
      stats.eligible / 2 + 1 ≤ getCount stats "No") ∧
    ((evaluateEarlyCompletion motion stats).complete = false ↔
      (getCount stats "Yes" < stats.eligible / 2 + 1 ∧
        getCount stats "No" < stats.eligible / 2 + 1)) ∧
    (evaluateEarlyCompletion motion zstats).complete = false := by
  have h1 : ¬ stats.eligible ≤ 0 := by omega
  have h2 : ¬ stats.voted ≤ 0 := by omega
  refine ⟨?_, ?_, ?_, ?_⟩
  · unfold evaluateEarlyCompletion
    rw [hmaj]
    simp only [if_neg h1, if_neg h2]
    split_ifs with hyes hno <;>
      simp only [EarlyResult.mk.injEq, Option.some.injEq] <;>
      constructor <;> intro h <;> first | omega | simp_all
  · unfold evaluateEarlyCompletion
    rw [hmaj]
    simp only [if_neg h1, if_neg h2]
    split_ifs with hyes hno <;>
      simp only [EarlyResult.mk.injEq, Option.some.injEq] <;>
      constructor <;> intro h <;> first | omega | simp_all
  · unfold evaluateEarlyCompletion
    rw [hmaj]
    simp only [if_neg h1, if_neg h2]
    split_ifs with hyes hno
    · rw [false_iff]
      omega
    · rw [false_iff]
      omega
    · simp only [true_iff,
        show ({ complete := false, outcome := none, reason := none } :
          EarlyResult).complete = false from rfl]
      constructor <;> omega
  · unfold evaluateEarlyCompletion
    rcases hz with hz | hz
    · rw [if_pos (by omega)]
    · by_cases hel : zstats.eligible ≤ 0
      · rw [if_pos hel]
      · rw [if_neg hel, if_pos (by omega)]

/-- Witness for C3: eligible = 10, 6 Yes votes cast, 4 outstanding reports
locked Passed (threshold 6 reached); zero cast ballots never complete. -/
theorem early_completion_simple_witness :
    evaluateEarlyCompletion
      ⟨1, "t", ["Yes", "No"], 0, 100, .Open, .Simple, none⟩
      ⟨10, 6, 4, [⟨"Yes", 6⟩]⟩ =
      ⟨true, some .Passed, some .early_threshold_passed⟩ ∧
    (evaluateEarlyCompletion
      ⟨1, "t", ["Yes", "No"], 0, 100, .Open, .Simple, none⟩
      ⟨10, 0, 10, []⟩).complete = false := by
  have h := early_completion_simple_characterization
    ⟨1, "t", ["Yes", "No"], 0, 100, .Open, .Simple, none⟩
    ⟨10, 6, 4, [⟨"Yes", 6⟩]⟩ ⟨10, 0, 10, []⟩
    rfl (by decide) (by decide) (by decide) (by decide) (Or.inr rfl)
  exact ⟨h.1.mpr (by decide), h.2.2.2⟩

/-- C4: for a TwoThirds motion with at least one eligible voter and at
least one cast ballot whose remaining field is eligible minus voted, the
early-completion projection with threshold ceil(eligible*2/3) is complete
with outcome Passed exactly when Yes is at least the threshold, complete
with outcome Failed exactly when Yes is below the threshold and
Yes + remaining falls short of it, and otherwise not complete. -/
theorem early_completion_twothirds_characterization
    (motion : Motion) (stats : MotionStats)
    (hmaj : motion.required_majority = .TwoThirds)
    (he : 1 ≤ stats.eligible) (hv : 1 ≤ stats.voted)
    (hrem : stats.remaining = (stats.eligible : Int) - (stats.voted : Int)) :
    (evaluateEarlyCompletion motion stats =
        ⟨true, some .Passed, some .early_threshold_passed⟩ ↔
      (2 * stats.eligible + 2) / 3 ≤ getCount stats "Yes") ∧
    (evaluateEarlyCompletion motion stats =
        ⟨true, some .Failed, some .early_threshold_failed⟩ ↔
      (getCount stats "Yes" < (2 * stats.eligible + 2) / 3 ∧
        (getCount stats "Yes" : Int) + stats.remaining <
          ((2 * stats.eligible + 2) / 3 : Nat))) ∧
    ((evaluateEarlyCompletion motion stats).complete = false ↔
      (getCount stats "Yes" < (2 * stats.eligible + 2) / 3 ∧
        (((2 * stats.eligible + 2) / 3 : Nat) : Int) ≤
          (getCount stats "Yes" : Int) + stats.remaining)) := by
  have h1 : ¬ stats.eligible ≤ 0 := by omega
  have h2 : ¬ stats.voted ≤ 0 := by omega
  refine ⟨?_, ?_, ?_⟩
  · unfold evaluateEarlyCompletion
    rw [hmaj]
    simp only [if_neg h1, if_neg h2]
    split_ifs with hyes hrest <;>
      simp only [EarlyResult.mk.injEq, Option.some.injEq] <;>
      constructor <;> intro h <;> first | omega | simp_all
  · unfold evaluateEarlyCompletion
    rw [hmaj]
    simp only [if_neg h1, if_neg h2]
    split_ifs with hyes hrest <;>
      simp only [EarlyResult.mk.injEq, Option.some.injEq] <;>
      constructor <;> intro h <;> first | omega | simp_all
  · unfold evaluateEarlyCompletion
    rw [hmaj]
    simp only [if_neg h1, if_neg h2]
    split_ifs with hyes hrest <;> simp <;> omega

/-- Witness for C4: eligible = 9 (threshold 6), 3 Yes and 4 No cast, 2
outstanding: Yes + remaining = 5 < 6, locked Failed. -/
theorem early_completion_twothirds_witness :
    evaluateEarlyCompletion
      ⟨2, "t", ["Yes", "No"], 0, 100, .Open, .TwoThirds, none⟩
      ⟨9, 7, 2, [⟨"No", 4⟩, ⟨"Yes", 3⟩]⟩ =
      ⟨true, some .Failed, some .early_threshold_failed⟩ := by
  have h := early_completion_twothirds_characterization
    ⟨2, "t", ["Yes", "No"], 0, 100, .Open, .TwoThirds, none⟩
    ⟨9, 7, 2, [⟨"No", 4⟩, ⟨"Yes", 3⟩]⟩
    rfl (by decide) (by decide) (by decide)
  exact h.2.1.mpr (by decide)

/-- Updating rows by id with an id-preserving function commutes with the
first-match lookup by id (helper for the token and store lemmas below). -/
theorem find_update_by_id (l : List Token) (tokenId : Nat) (f : Token → Token)
    (hf : ∀ x, (f x).id = x.id) :
    (l.map (fun x => if x.id == tokenId then f x else x)).find?
        (fun t => t.id == tokenId) =
      (l.find? (fun t => t.id == tokenId)).map f := by
  induction l with
  | nil => rfl
  | cons a as ih =>
    by_cases h : (a.id == tokenId) = true
    · have hpfa : ((f a).id == tokenId) = true := by
        rw [hf a]
        exact h
      rw [List.map_cons, if_pos h,
        @List.find?_cons_of_pos Token (fun t => t.id == tokenId) (f a)
          (as.map (fun x => if x.id == tokenId then f x else x)) hpfa,
        @List.find?_cons_of_pos Token (fun t => t.id == tokenId) a as h]
      rfl
    · rw [List.map_cons, if_neg h,
        @List.find?_cons_of_neg Token (fun t => t.id == tokenId) a
          (as.map (fun x => if x.id == tokenId then f x else x)) h,
        @List.find?_cons_of_neg Token (fun t => t.id == tokenId) a as h, ih]

/-- C9: a vote submitted strictly after close_at on a still-Open motion is
rejected with the specific reason "Voting has closed.", no ballot is
recorded and the token stays Active (the route returns the store
unchanged); and each failing precondition yields its own specific
rejection reason: unknown token, used token, revoked token, motion not
open, before the voting window, and unknown choice. -/
theorem vote_rejection_reasons
    (s : DB) (motionId : Nat) (tokenValue choice choiceBad : String)
    (motion motion2 : Motion) (tA tU tR tB : Token)
    (now now2 nowEarly nowIn : Int)
    (hm : getMotionById s motionId = some motion)
    (ht : getTokenByValue s tokenValue = some tA)
    (hA : tA.status = .Active) (hAm : tA.motion_id = motion.id)
    (hopen : motion.status = .Open)
    (hwin : motion.open_at ≤ now) (hlate : motion.close_at < now)
    (htv : tokenValue ≠ "") (hch : choice ≠ "")
    (hU : tU.status = .Used) (hR : tR.status = .Revoked)
    (hm2 : motion2.status ≠ .Open)
    (hB : tB.status = .Active) (hBm : tB.motion_id = motion2.id)
    (hearly : nowEarly < motion.open_at)
    (hbad : choiceBad ∉ motion.options) (hcb : choiceBad ≠ "")
    (hin1 : motion.open_at ≤ nowIn) (hin2 : nowIn ≤ motion.close_at) :
    validateVoteEligibility motion (some tA) now =
      ⟨false, some "Voting has closed."⟩ ∧
    postVote s motionId tokenValue choice now =
      (s, ⟨false, "Voting has closed."⟩) ∧
    validateVoteEligibility motion none now2 =
      ⟨false, some "Invalid voting link."⟩ ∧
    validateVoteEligibility motion (some tU) now2 =
      ⟨false, some "This voting link has already been used."⟩ ∧
    validateVoteEligibility motion (some tR) now2 =
      ⟨false, some "This voting link has been revoked."⟩ ∧
    validateVoteEligibility motion2 (some tB) now2 =
      ⟨false, some "Voting is not currently open for this motion."⟩ ∧
    validateVoteEligibility motion (some tA) nowEarly =
      ⟨false, some "Voting has not yet opened."⟩ ∧
    postVote s motionId tokenValue choiceBad nowIn =
      (s, ⟨false, "Invalid choice."⟩) := by
  have hnlt : ¬(now < motion.open_at) := by omega
  have hgt : motion.close_at < now := hlate
  have hnlt2 : ¬(nowIn < motion.open_at) := by omega
  have hngt2 : ¬(motion.close_at < nowIn) := by omega
  have e1 : validateVoteEligibility motion (some tA) now =
      ⟨false, some "Voting has closed."⟩ := by
    simp [validateVoteEligibility, hA, hAm, hopen, hnlt, hgt]
  have ein : validateVoteEligibility motion (some tA) nowIn = ⟨true, none⟩ := by
    simp [validateVoteEligibility, hA, hAm, hopen, hnlt2, hngt2]
  refine ⟨e1, ?_, ?_, ?_, ?_, ?_, ?_, ?_⟩
  · simp only [postVote, hm, ht, e1]
    rw [if_neg (by simp [htv, hch])]
    simp
  · rfl
  · simp [validateVoteEligibility, hU]
  · simp [validateVoteEligibility, hR]
  · simp [validateVoteEligibility, hB, hBm, hm2]
  · simp [validateVoteEligibility, hA, hAm, hopen, hearly]
  · simp only [postVote, hm, ht, ein]
    rw [if_neg (by simp [htv, hcb])]
    simp [hbad]

/-- Witness for C9: a concrete store with an Open motion (window 0..100)
and an Active token; a vote at time 101 is rejected with "Voting has
closed." and the store is unchanged, and an unknown choice at time 50 is
rejected with "Invalid choice.". -/
theorem vote_rejection_reasons_witness :
    postVote
      ⟨[⟨1, "t", ["Yes", "No"], 0, 100, .Open, .Simple, none⟩],
       [⟨5, 1, "tok", none, .Active, none⟩], [], []⟩
      1 "tok" "Yes" 101 =
      (⟨[⟨1, "t", ["Yes", "No"], 0, 100, .Open, .Simple, none⟩],
        [⟨5, 1, "tok", none, .Active, none⟩], [], []⟩,
       ⟨false, "Voting has closed."⟩) ∧
    postVote
      ⟨[⟨1, "t", ["Yes", "No"], 0, 100, .Open, .Simple, none⟩],
       [⟨5, 1, "tok", none, .Active, none⟩], [], []⟩
      1 "tok" "Maybe" 50 =
      (⟨[⟨1, "t", ["Yes", "No"], 0, 100, .Open, .Simple, none⟩],
        [⟨5, 1, "tok", none, .Active, none⟩], [], []⟩,
       ⟨false, "Invalid choice."⟩) := by
  have h := vote_rejection_reasons
    ⟨[⟨1, "t", ["Yes", "No"], 0, 100, .Open, .Simple, none⟩],
     [⟨5, 1, "tok", none, .Active, none⟩], [], []⟩
    1 "tok" "Yes" "Maybe"
    ⟨1, "t", ["Yes", "No"], 0, 100, .Open, .Simple, none⟩
    ⟨2, "d", ["Yes", "No"], 0, 100, .Draft, .Simple, none⟩
    ⟨5, 1, "tok", none, .Active, none⟩
    ⟨6, 1, "u", none, .Used, some 1⟩
    ⟨7, 1, "r", none, .Revoked, none⟩
    ⟨8, 2, "b", none, .Active, none⟩
    101 50 (-1) 50
    rfl rfl rfl rfl rfl (by decide) (by decide) (by decide) (by decide)
    rfl rfl (by decide) rfl rfl (by decide) (by decide) (by decide)
    (by decide) (by decide)
  exact ⟨h.2.1, h.2.2.2.2.2.2.2⟩

/-- Lookup by id after `markUsed`: the found row is the updated one. -/
theorem getTokenById_markUsed (s : DB) (st : TokenStatus) (now : Int)
    (tokenId : Nat) :
    getTokenById (markUsed s st now tokenId) tokenId =
      (getTokenById s tokenId).map
        (fun t => { t with status := st, used_at := some now }) := by
  unfold getTokenById markUsed
  exact find_update_by_id s.tokens tokenId _ (fun x => rfl)

/-- Lookup by id after `revokeTokenRow`: the found row is the updated one. -/
theorem getTokenById_revokeTokenRow (s : DB) (st : TokenStatus) (tokenId : Nat) :
    getTokenById (revokeTokenRow s st tokenId) tokenId =
      (getTokenById s tokenId).map (fun t => { t with status := st }) := by
  unfold getTokenById revokeTokenRow
  exact find_update_by_id s.tokens tokenId _ (fun x => rfl)

/-- Dissection of a successful `submitVote` transaction: the token was
found Active, no ballot referencing it existed (the UNIQUE-constraint
check), and the resulting store is the old one with the ballot appended
and the token marked Used. -/
theorem submitVote_ok_elim (s : DB) (motionId tokenId : Nat) (choice : String)
    (now : Int) (s1 : DB)
    (hok : submitVote s motionId tokenId choice now = .ok s1) :
    ∃ t, getTokenById s tokenId = some t ∧ t.status = .Active ∧
      s.ballots.any (fun b => b.voter_token_id == tokenId) = false ∧
      s1 = markUsed
        { s with ballots := s.ballots ++ [⟨motionId, tokenId, choice, now⟩] }
        .Used now tokenId := by
  unfold submitVote at hok
  cases hfind : getTokenById s tokenId with
  | none =>
    rw [hfind] at hok
    exact absurd hok (by simp)
  | some t =>
    rw [hfind] at hok
    dsimp only at hok
    by_cases hst : t.status = .Active
    · rw [if_neg (show ¬ t.status ≠ TokenStatus.Active by simp [hst])] at hok
      unfold ballotCreate at hok
      by_cases hdup : s.ballots.any (fun b => b.voter_token_id == tokenId) = true
      · rw [if_pos hdup] at hok
        exact absurd hok (by simp)
      · rw [if_neg hdup] at hok
        dsimp only at hok
        simp only [Except.ok.injEq] at hok
        exact ⟨t, rfl, hst, by simpa using hdup, hok.symm⟩
    · rw [if_pos (show t.status ≠ TokenStatus.Active from hst)] at hok
      exact absurd hok (by simp)

/-- C10 counterexample: the administrator revoke route applied to a token
whose status is Used (its ballot already recorded) flips the token to
Revoked, so a Used token's status is not terminal as the claim states. -/
theorem revoke_overwrites_used_token :
    (postRevokeToken
      ⟨[⟨1, "t", ["Yes", "No"], 0, 100, .Open, .Simple, none⟩],
       [⟨5, 1, "tok", none, .Used, some 10⟩], [⟨1, 5, "Yes", 10⟩], []⟩
      5).1.tokens =
      [⟨5, 1, "tok", none, .Revoked, some 10⟩] ∧
    TokenStatus.Used ≠ TokenStatus.Revoked := by
  exact ⟨by decide, by decide⟩

/-- C10 amended: vote submission performs Active → Used exactly when the
token's ballot is created (a successful transaction implies the token was
Active, marks it Used and appends the ballot, and submission against a
non-Active token fails); the administrator revoke route sets any existing
token's status to Revoked regardless of its current status — in
particular Used → Revoked is possible, so Used is terminal only against
vote submission, not against revoke — and a Revoked token can only stay
Revoked: revoking it again leaves its row unchanged. -/
theorem token_status_transitions
    (s s1 : DB) (motionId tokenId : Nat) (choice : String) (now : Int)
    (t : Token)
    (hfind : getTokenById s tokenId = some t)
    (hok : submitVote s motionId tokenId choice now = .ok s1)
    (s2 : DB) (tid2 : Nat) (u : Token)
    (hfind2 : getTokenById s2 tid2 = some u)
    (s3 : DB) (mid3 tid3 : Nat) (c3 : String) (n3 : Int) (r : Token)
    (hfind3 : getTokenById s3 tid3 = some r) (hr : r.status ≠ .Active)
    (s4 : DB) (tid4 : Nat) (v : Token)
    (hfind4 : getTokenById s4 tid4 = some v) (hv : v.status = .Revoked) :
    (t.status = .Active ∧
      getTokenById s1 tokenId =
        some { t with status := .Used, used_at := some now } ∧
      s1.ballots = s.ballots ++ [⟨motionId, tokenId, choice, now⟩]) ∧
    getTokenById (postRevokeToken s2 tid2).1 tid2 =
      some { u with status := .Revoked } ∧
    submitVote s3 mid3 tid3 c3 n3 = .error "Token is not active" ∧
    getTokenById (postRevokeToken s4 tid4).1 tid4 = some v := by
  obtain ⟨t', hfind', hst, hnb, hs1⟩ :=
    submitVote_ok_elim s motionId tokenId choice now s1 hok
  have htt : t' = t := by
    rw [hfind] at hfind'
    exact (Option.some.injEq _ _ ▸ hfind').symm
  subst htt
  refine ⟨⟨hst, ?_, ?_⟩, ?_, ?_, ?_⟩
  · rw [hs1, getTokenById_markUsed]
    have : getTokenById
        { s with ballots := s.ballots ++ [⟨motionId, tokenId, choice, now⟩] }
        tokenId = getTokenById s tokenId := rfl
    rw [this, hfind']
    rfl
  · rw [hs1]
    rfl
  · unfold postRevokeToken
    rw [hfind2]
    simp only
    rw [getTokenById_revokeTokenRow, hfind2]
    rfl
  · unfold submitVote
    rw [hfind3]
    dsimp only
    rw [if_pos hr]
  · unfold postRevokeToken
    rw [hfind4]
    simp only
    rw [getTokenById_revokeTokenRow, hfind4]
    have hvv : ({ v with status := .Revoked } : Token) = v := by
      cases v
      simp_all
    simp [hvv]

/-- Witness for C10's amended theorem: a concrete store where the Active
token 5 is consumed by a successful vote, token 6 (Used) is revoked by
the route, vote submission against the Used token fails, and revoking the
Revoked token 7 leaves it unchanged. -/
theorem token_status_transitions_witness :
    (TokenStatus.Active = TokenStatus.Active ∧
      getTokenById
        ⟨[], [⟨5, 1, "tok", none, .Used, some 50⟩], [⟨1, 5, "Yes", 50⟩], []⟩
        5 = some ⟨5, 1, "tok", none, .Used, some 50⟩ ∧
      Ballot.mk 1 5 "Yes" 50 :: [] = [] ++ [⟨1, 5, "Yes", 50⟩]) ∧
    getTokenById
      (postRevokeToken ⟨[], [⟨6, 1, "u", none, .Used, some 2⟩], [], []⟩ 6).1
      6 = some ⟨6, 1, "u", none, .Revoked, some 2⟩ ∧
    submitVote ⟨[], [⟨6, 1, "u", none, .Used, some 2⟩], [], []⟩ 1 6 "No" 60 =
      .error "Token is not active" ∧
    getTokenById
      (postRevokeToken ⟨[], [⟨7, 1, "r", none, .Revoked, none⟩], [], []⟩ 7).1
      7 = some ⟨7, 1, "r", none, .Revoked, none⟩ := by
  have h := token_status_transitions
    ⟨[], [⟨5, 1, "tok", none, .Active, none⟩], [], []⟩
    ⟨[], [⟨5, 1, "tok", none, .Used, some 50⟩], [⟨1, 5, "Yes", 50⟩], []⟩
    1 5 "Yes" 50 ⟨5, 1, "tok", none, .Active, none⟩ (by decide) rfl
    ⟨[], [⟨6, 1, "u", none, .Used, some 2⟩], [], []⟩ 6
    ⟨6, 1, "u", none, .Used, some 2⟩ (by decide)
    ⟨[], [⟨6, 1, "u", none, .Used, some 2⟩], [], []⟩ 1 6 "No" 60
    ⟨6, 1, "u", none, .Used, some 2⟩ (by decide) (by decide)
    ⟨[], [⟨7, 1, "r", none, .Revoked, none⟩], [], []⟩ 7
    ⟨7, 1, "r", none, .Revoked, none⟩ (by decide) (by decide)
  exact ⟨⟨rfl, by decide, by decide⟩, h.2.1, h.2.2.1, h.2.2.2⟩

/-- When the token under contention is not Active, every submission in
the race fails with the same message and the store never changes. -/
theorem runSubmits_all_fail (choices : List String) (s : DB)
    (motionId tokenId : Nat) (now : Int) (u : Token)
    (hfind : getTokenById s tokenId = some u) (hu : u.status ≠ .Active) :
    runSubmits s motionId tokenId choices now =
      (s, choices.map (fun _ => some "Token is not active")) := by
  induction choices with
  | nil => rfl
  | cons c rest ih =>
    have hsub : submitVote s motionId tokenId c now =
        .error "Token is not active" := by
      unfold submitVote
      rw [hfind]
      dsimp only
      rw [if_pos hu]
    unfold runSubmits
    rw [hsub]
    dsimp only
    rw [ih]
    rfl

/-- C1: in a race of N = 1 + rest.length submissions on one Active token
with no prior ballot, exactly the first transaction succeeds and every
other one fails observing the token as not Active; the final store holds
exactly one ballot referencing the token and the token is Used with the
submission timestamp (ballot insert and status flip committed together);
and any single successful submission preserves the at-most-one-ballot-
per-token invariant. -/
theorem submit_vote_race_exactly_one
    (s : DB) (motionId tokenId : Nat) (c : String) (rest : List String)
    (now : Int) (t : Token)
    (hfind : getTokenById s tokenId = some t) (hA : t.status = .Active)
    (hnb : s.ballots.any (fun b => b.voter_token_id == tokenId) = false)
    (s0 s0' : DB) (m0 tid0 : Nat) (c0 : String) (n0 : Int)
    (hinv : ∀ tid : Nat,
      (s0.ballots.filter (fun b => b.voter_token_id == tid)).length ≤ 1)
    (hok0 : submitVote s0 m0 tid0 c0 n0 = .ok s0') :
    (runSubmits s motionId tokenId (c :: rest) now).2 =
      none :: rest.map (fun _ => some "Token is not active") ∧
    ((runSubmits s motionId tokenId (c :: rest) now).1.ballots.filter
      (fun b => b.voter_token_id == tokenId)).length = 1 ∧
    getTokenById (runSubmits s motionId tokenId (c :: rest) now).1 tokenId =
      some { t with status := .Used, used_at := some now } ∧
    (∀ tid : Nat,
      (s0'.ballots.filter (fun b => b.voter_token_id == tid)).length ≤ 1) := by
  have hsub1 : submitVote s motionId tokenId c now =
      .ok (markUsed
        { s with ballots := s.ballots ++ [⟨motionId, tokenId, c, now⟩] }
        .Used now tokenId) := by
    unfold submitVote
    rw [hfind]
    dsimp only
    rw [if_neg (show ¬ t.status ≠ TokenStatus.Active by simp [hA])]
    unfold ballotCreate
    rw [if_neg (by simp [hnb])]
  have hfind1 : getTokenById
      (markUsed { s with ballots := s.ballots ++ [⟨motionId, tokenId, c, now⟩] }
        .Used now tokenId) tokenId =
      some { t with status := .Used, used_at := some now } := by
    rw [getTokenById_markUsed]
    have hsame : getTokenById
        { s with ballots := s.ballots ++ [⟨motionId, tokenId, c, now⟩] }
        tokenId = getTokenById s tokenId := rfl
    rw [hsame, hfind]
    rfl
  have hrun : runSubmits s motionId tokenId (c :: rest) now =
      (markUsed { s with ballots := s.ballots ++ [⟨motionId, tokenId, c, now⟩] }
        .Used now tokenId,
       none :: rest.map (fun _ => some "Token is not active")) := by
    unfold runSubmits
    rw [hsub1]
    dsimp only
    rw [runSubmits_all_fail rest _ motionId tokenId now _ hfind1 (by simp)]
  have hfilter0 : s.ballots.filter (fun b => b.voter_token_id == tokenId) = [] := by
    rw [List.filter_eq_nil_iff]
    intro b hb
    have := List.any_eq_false.mp hnb b hb
    simpa using this
  refine ⟨by rw [hrun], ?_, by rw [hrun]; exact hfind1, ?_⟩
  · rw [hrun]
    show ((s.ballots ++ [Ballot.mk motionId tokenId c now]).filter
      (fun b => b.voter_token_id == tokenId)).length = 1
    rw [List.filter_append, hfilter0]
    simp
  · obtain ⟨t0, hfind0, hst0, hnb0, hs0⟩ :=
      submitVote_ok_elim s0 m0 tid0 c0 n0 s0' hok0
    intro tid
    have hb0 : s0'.ballots = s0.ballots ++ [Ballot.mk m0 tid0 c0 n0] := by
      rw [hs0]
      rfl
    rw [hb0, List.filter_append]
    by_cases htid : tid0 = tid
    · have hfilter00 : s0.ballots.filter (fun b => b.voter_token_id == tid) = [] := by
        rw [List.filter_eq_nil_iff]
        intro b hb
        have := List.any_eq_false.mp hnb0 b hb
        subst htid
        simpa using this
      rw [hfilter00]
      simp only [List.nil_append]
      exact le_trans (List.length_filter_le _ _) (by simp)
    · have : ([Ballot.mk m0 tid0 c0 n0].filter
          (fun b => b.voter_token_id == tid)) = [] := by
        simp [htid]
      rw [this]
      simpa using hinv tid

/-- Witness for C1: three racing submissions on the single Active token 5
of a fresh store: the first succeeds, the other two observe the token as
not Active, one ballot exists and the token ends Used. -/
theorem submit_vote_race_exactly_one_witness :
    (runSubmits ⟨[], [⟨5, 1, "tok", none, .Active, none⟩], [], []⟩
      1 5 ("Yes" :: ["Yes", "No"]) 50).2 =
      none :: ["Yes", "No"].map (fun _ => some "Token is not active") ∧
    ((runSubmits ⟨[], [⟨5, 1, "tok", none, .Active, none⟩], [], []⟩
      1 5 ("Yes" :: ["Yes", "No"]) 50).1.ballots.filter
      (fun b => b.voter_token_id == 5)).length = 1 ∧
    getTokenById (runSubmits ⟨[], [⟨5, 1, "tok", none, .Active, none⟩], [], []⟩
      1 5 ("Yes" :: ["Yes", "No"]) 50).1 5 =
      some ⟨5, 1, "tok", none, .Used, some 50⟩ := by
  have h := submit_vote_race_exactly_one
    ⟨[], [⟨5, 1, "tok", none, .Active, none⟩], [], []⟩
    1 5 "Yes" ["Yes", "No"] 50 ⟨5, 1, "tok", none, .Active, none⟩
    (by decide) rfl (by decide)
    ⟨[], [⟨5, 1, "tok", none, .Active, none⟩], [], []⟩
    ⟨[], [⟨5, 1, "tok", none, .Used, some 50⟩], [⟨1, 5, "Yes", 50⟩], []⟩
    1 5 "Yes" 50 (fun tid => by simp) rfl
  exact ⟨h.1, h.2.1, h.2.2.1⟩

/-- An ensure call against a motion that already has an outbox row is a
no-op on the store. -/
theorem ensure_noop (s : DB) (motionId : Nat) (now : Int)
    (h : s.notifications.any (fun n => n.motion_id == motionId) = true) :
    ensureResultsEmailNotification s motionId now = s := by
  unfold ensureResultsEmailNotification
  rw [if_pos h]

/-- Iterating ensure over any list of call times is a no-op once a row
for the motion exists. -/
theorem ensure_foldl_noop (times : List Int) (st : DB) (motionId : Nat)
    (h : st.notifications.any (fun n => n.motion_id == motionId) = true) :
    times.foldl (fun acc tm => ensureResultsEmailNotification acc motionId tm)
      st = st := by
  induction times with
  | nil => rfl
  | cons tm rest ih =>
    show rest.foldl _ (ensureResultsEmailNotification st motionId tm) = st
    rw [ensure_noop st motionId tm h]
    exact ih

/-- C6: starting from a store with no outbox row for a motion, calling the
ensure operation 1 + rest.length times (at arbitrary call times) yields
exactly the store with one new Pending row for that motion, attempts 0 and
next_attempt_at the first call's now — so exactly one row for that motion
exists no matter how many times ensure ran; and a single ensure call
preserves the at-most-one-row-per-motion bound for any motion id. -/
theorem ensure_notification_idempotent
    (s : DB) (motionId : Nat) (t0 : Int) (rest : List Int)
    (h0 : s.notifications.countP (fun n => n.motion_id == motionId) = 0)
    (s2 : DB) (mid2 : Nat) (t2 : Int)
    (hle : s2.notifications.countP (fun n => n.motion_id == mid2) ≤ 1) :
    rest.foldl (fun st tm => ensureResultsEmailNotification st motionId tm)
        (ensureResultsEmailNotification s motionId t0) =
      { s with notifications := s.notifications ++
          [⟨s.notifications.length, motionId, .Pending, 0, t0, none⟩] } ∧
    (rest.foldl (fun st tm => ensureResultsEmailNotification st motionId tm)
        (ensureResultsEmailNotification s motionId t0)).notifications.countP
      (fun n => n.motion_id == motionId) = 1 ∧
    (ensureResultsEmailNotification s2 mid2 t2).notifications.countP
      (fun n => n.motion_id == mid2) ≤ 1 := by
  have hnone : (s.notifications.any (fun n => n.motion_id == motionId)) = false := by
    rw [List.any_eq_false]
    intro n hn
    exact (List.countP_eq_zero.mp h0) n hn
  have hfirst : ensureResultsEmailNotification s motionId t0 =
      { s with notifications := s.notifications ++
          [⟨s.notifications.length, motionId, .Pending, 0, t0, none⟩] } := by
    unfold ensureResultsEmailNotification
    rw [if_neg (by simp [hnone])]
  have hany1 : ({ s with notifications := s.notifications ++
      [⟨s.notifications.length, motionId, .Pending, 0, t0, none⟩] } :
        DB).notifications.any (fun n => n.motion_id == motionId) = true := by
    rw [List.any_append]
    simp
  have hfold : rest.foldl
      (fun st tm => ensureResultsEmailNotification st motionId tm)
      (ensureResultsEmailNotification s motionId t0) =
      { s with notifications := s.notifications ++
          [⟨s.notifications.length, motionId, .Pending, 0, t0, none⟩] } := by
    rw [hfirst]
    exact ensure_foldl_noop rest _ motionId hany1
  refine ⟨hfold, ?_, ?_⟩
  · rw [hfold]
    show (s.notifications ++
      [NotifRow.mk s.notifications.length motionId .Pending 0 t0 none]).countP
      (fun n => n.motion_id == motionId) = 1
    rw [List.countP_append, h0]
    simp
  · unfold ensureResultsEmailNotification
    by_cases h : s2.notifications.any (fun n => n.motion_id == mid2) = true
    · rw [if_pos h]
      exact hle
    · rw [if_neg h]
      have hany2 : s2.notifications.any (fun n => n.motion_id == mid2) = false := by
        simpa using h
      have hzero : s2.notifications.countP (fun n => n.motion_id == mid2) = 0 := by
        rw [List.countP_eq_zero]
        exact List.any_eq_false.mp hany2
      show (s2.notifications ++
        [NotifRow.mk s2.notifications.length mid2 .Pending 0 t2 none]).countP
        (fun n => n.motion_id == mid2) ≤ 1
      rw [List.countP_append, hzero]
      simp

/-- Witness for C6: four ensure calls on motion 9 against an empty store
leave exactly one Pending row with attempts 0 and the first call time. -/
theorem ensure_notification_idempotent_witness :
    [20, 30, 40].foldl
        (fun st tm => ensureResultsEmailNotification st 9 tm)
        (ensureResultsEmailNotification ⟨[], [], [], []⟩ 9 10) =
      (⟨[], [], [], [⟨0, 9, .Pending, 0, 10, none⟩]⟩ : DB) ∧
    ([20, 30, 40].foldl
        (fun st tm => ensureResultsEmailNotification st 9 tm)
        (ensureResultsEmailNotification ⟨[], [], [], []⟩ 9 10)).notifications.countP
      (fun n => n.motion_id == 9) = 1 := by
  have h := ensure_notification_idempotent
    ⟨[], [], [], []⟩ 9 10 [20, 30, 40] (by decide)
    ⟨[], [], [], [⟨0, 9, .Pending, 0, 10, none⟩]⟩ 9 99 (by decide)
  exact ⟨h.1, h.2.1⟩

/-- Ensure never touches the motions table. -/
theorem ensure_motions (s : DB) (motionId : Nat) (now : Int) :
    (ensureResultsEmailNotification s motionId now).motions = s.motions := by
  unfold ensureResultsEmailNotification
  split <;> rfl

/-- Ensure never touches the tokens table. -/
theorem ensure_tokens (s : DB) (motionId : Nat) (now : Int) :
    (ensureResultsEmailNotification s motionId now).tokens = s.tokens := by
  unfold ensureResultsEmailNotification
  split <;> rfl

/-- Ensure never touches the ballots table. -/
theorem ensure_ballots (s : DB) (motionId : Nat) (now : Int) :
    (ensureResultsEmailNotification s motionId now).ballots = s.ballots := by
  unfold ensureResultsEmailNotification
  split <;> rfl

/-- After ensure, a row for its motion is present. -/
theorem ensure_any_self (s : DB) (motionId : Nat) (now : Int) :
    (ensureResultsEmailNotification s motionId now).notifications.any
      (fun n => n.motion_id == motionId) = true := by
  unfold ensureResultsEmailNotification
  split
  · assumption
  · rw [List.any_append]
    simp

/-- Ensure preserves every already-present notification row. -/
theorem ensure_notif_mem (s : DB) (motionId : Nat) (now : Int) (n : NotifRow)
    (hn : n ∈ s.notifications) :
    n ∈ (ensureResultsEmailNotification s motionId now).notifications := by
  unfold ensureResultsEmailNotification
  split
  · exact hn
  · exact List.mem_append_left _ hn

/-- Ensure preserves satisfaction of any row predicate. -/
theorem ensure_any_mono (s : DB) (motionId : Nat) (now : Int)
    (p : NotifRow → Bool) (h : s.notifications.any p = true) :
    (ensureResultsEmailNotification s motionId now).notifications.any p = true := by
  obtain ⟨n, hn, hpn⟩ := List.any_eq_true.mp h
  exact List.any_eq_true.mpr
    ⟨n, ensure_notif_mem s motionId now n hn, hpn⟩

/-- Ensure preserves the at-most-one-row bound for every motion id. -/
theorem ensure_countP_le_one (s : DB) (motionId : Nat) (now : Int) (i : Nat)
    (hle : s.notifications.countP (fun n => n.motion_id == i) ≤ 1) :
    (ensureResultsEmailNotification s motionId now).notifications.countP
      (fun n => n.motion_id == i) ≤ 1 := by
  unfold ensureResultsEmailNotification
  split
  · exact hle
  · next h =>
    rw [List.countP_append]
    by_cases hmi : motionId = i
    · subst hmi
      have hanyf : s.notifications.any (fun n => n.motion_id == motionId) =
          false := Bool.eq_false_iff.mpr h
      have hzero : s.notifications.countP
          (fun n => n.motion_id == motionId) = 0 := by
        rw [List.countP_eq_zero]
        exact List.any_eq_false.mp hanyf
      rw [hzero]
      simp
    · have : ([NotifRow.mk s.notifications.length motionId .Pending 0 now
          none].countP (fun n => n.motion_id == i)) = 0 := by
        simp [hmi]
      rw [this]
      simpa using hle

/-- Filtering by id commutes with an id-preserving row update. -/
theorem filter_map_id_pres (l : List Motion) (f : Motion → Motion) (i : Nat)
    (hfid : ∀ x, (f x).id = x.id) :
    (l.map f).filter (fun x => x.id == i) =
      (l.filter (fun x => x.id == i)).map f := by
  rw [List.filter_map]
  have : ((fun x => x.id == i) ∘ f) = (fun x => x.id == i) := by
    funext x
    simp [Function.comp, hfid]
  rw [this]

/-- Row filtering by a different id is unchanged by `updateMotionStatus`. -/
theorem updateMotionStatus_filter_other (s : DB) (st : MotionStatus)
    (mid i : Nat) (hne : mid ≠ i) :
    (updateMotionStatus s st mid).motions.filter (fun x => x.id == i) =
      s.motions.filter (fun x => x.id == i) := by
  unfold updateMotionStatus
  rw [filter_map_id_pres _ _ _ (fun x => by
    by_cases h : (x.id == mid) = true <;> simp [h])]
  have : ∀ x ∈ s.motions.filter (fun x => x.id == i),
      (if x.id == mid then ({ x with status := st } : Motion) else x) = x := by
    intro x hx
    have hxi : x.id = i := by simpa using (List.mem_filter.mp hx).2
    rw [if_neg (by simp [hxi, Ne.symm hne])]
  calc (s.motions.filter (fun x => x.id == i)).map
        (fun m => if m.id == mid then { m with status := st } else m)
      = (s.motions.filter (fun x => x.id == i)).map id :=
        List.map_congr_left (fun a ha => this a ha)
    _ = s.motions.filter (fun x => x.id == i) := List.map_id _

/-- Row filtering by the updated id maps every matching row to the
status-updated row. -/
theorem updateMotionStatus_filter_self (s : DB) (st : MotionStatus) (mid : Nat) :
    (updateMotionStatus s st mid).motions.filter (fun x => x.id == mid) =
      (s.motions.filter (fun x => x.id == mid)).map
        (fun x => { x with status := st }) := by
  unfold updateMotionStatus
  rw [filter_map_id_pres _ _ _ (fun x => by
    by_cases h : (x.id == mid) = true <;> simp [h])]
  refine List.map_congr_left (fun a ha => ?_)
  have hai : a.id = mid := by simpa using (List.mem_filter.mp ha).2
  rw [if_pos (by simp [hai])]

/-- Motion-list analogue of `find_update_by_id`. -/
theorem find_update_by_id_motion (l : List Motion) (mid : Nat)
    (f : Motion → Motion) (hf : ∀ x, (f x).id = x.id) :
    (l.map (fun x => if x.id == mid then f x else x)).find?
        (fun t => t.id == mid) =
      (l.find? (fun t => t.id == mid)).map f := by
  induction l with
  | nil => rfl
  | cons a as ih =>
    by_cases h : (a.id == mid) = true
    · have hpfa : ((f a).id == mid) = true := by
        rw [hf a]
        exact h
      rw [List.map_cons, if_pos h,
        @List.find?_cons_of_pos Motion (fun t => t.id == mid) (f a)
          (as.map (fun x => if x.id == mid then f x else x)) hpfa,
        @List.find?_cons_of_pos Motion (fun t => t.id == mid) a as h]
      rfl
    · rw [List.map_cons, if_neg h,
        @List.find?_cons_of_neg Motion (fun t => t.id == mid) a
          (as.map (fun x => if x.id == mid then f x else x)) h,
        @List.find?_cons_of_neg Motion (fun t => t.id == mid) a as h, ih]

/-- Lookup by id after `updateMotionStatus`: the found row is updated. -/
theorem getMotionById_update (s : DB) (st : MotionStatus) (mid : Nat) :
    getMotionById (updateMotionStatus s st mid) mid =
      (getMotionById s mid).map (fun x => { x with status := st }) := by
  unfold getMotionById updateMotionStatus
  exact find_update_by_id_motion s.motions mid _ (fun x => rfl)

/-- Ensure leaves every motion lookup unchanged. -/
theorem getMotionById_ensure (s : DB) (motionId : Nat) (now : Int) (i : Nat) :
    getMotionById (ensureResultsEmailNotification s motionId now) i =
      getMotionById s i := by
  unfold getMotionById
  rw [ensure_motions]

/-- The early-completion projection returns one of exactly three shapes. -/
theorem evaluateEarly_shape (motion : Motion) (stats : MotionStats) :
    evaluateEarlyCompletion motion stats = ⟨false, none, none⟩ ∨
    evaluateEarlyCompletion motion stats =
      ⟨true, some .Passed, some .early_threshold_passed⟩ ∨
    evaluateEarlyCompletion motion stats =
      ⟨true, some .Failed, some .early_threshold_failed⟩ := by
  obtain ⟨mid, mtitle, mopts, moa, mca, mst, mmaj, mout⟩ := motion
  unfold evaluateEarlyCompletion
  cases mmaj <;> dsimp only <;> split_ifs <;>
    first
      | exact Or.inl rfl
      | exact Or.inr (Or.inl rfl)
      | exact Or.inr (Or.inr rfl)

/-- A complete early result always carries a close reason. -/
theorem evaluateEarly_reason_isSome (motion : Motion) (stats : MotionStats)
    (h : (evaluateEarlyCompletion motion stats).complete = true) :
    ∃ r, (evaluateEarlyCompletion motion stats).reason = some r := by
  rcases evaluateEarly_shape motion stats with hs | hs | hs <;> rw [hs] at h ⊢
  · exact absurd h (by simp)
  · exact ⟨_, rfl⟩
  · exact ⟨_, rfl⟩

/-- Case analysis of `closeMotionIfEligible`: it either leaves the store
untouched and reports no change, or commits the status update and the
outbox enqueue together and reports a reason. -/
theorem close_cases (s : DB) (m : Motion) (now : Int) :
    closeMotionIfEligible s m now = (s, none) ∨
    ∃ r, closeMotionIfEligible s m now =
      (ensureResultsEmailNotification
        (updateMotionStatus s .Closed m.id) m.id now, some r) := by
  unfold closeMotionIfEligible
  by_cases h1 : m.status ≠ .Open
  · rw [if_pos h1]
    exact Or.inl rfl
  · rw [if_neg h1]
    dsimp only
    split_ifs with h2 h3 h4
    · exact Or.inl rfl
    · obtain ⟨r, hr⟩ :=
        evaluateEarly_reason_isSome m (getMotionStats s m.id) h3
      exact Or.inr ⟨r, by rw [hr]⟩
    · exact Or.inr ⟨.all_votes_cast, rfl⟩
    · exact Or.inr ⟨.end_time_reached, rfl⟩

/-- The close step never touches tokens. -/
theorem close_tokens (s : DB) (m : Motion) (now : Int) :
    (closeMotionIfEligible s m now).1.tokens = s.tokens := by
  rcases close_cases s m now with h | ⟨r, h⟩ <;> rw [h]
  rw [ensure_tokens]
  rfl

/-- The close step never touches ballots. -/
theorem close_ballots (s : DB) (m : Motion) (now : Int) :
    (closeMotionIfEligible s m now).1.ballots = s.ballots := by
  rcases close_cases s m now with h | ⟨r, h⟩ <;> rw [h]
  rw [ensure_ballots]
  rfl

/-- The close step leaves every motion row with a different id unchanged. -/
theorem close_filter_other (s : DB) (m : Motion) (now : Int) (i : Nat)
    (hne : m.id ≠ i) :
    (closeMotionIfEligible s m now).1.motions.filter (fun x => x.id == i) =
      s.motions.filter (fun x => x.id == i) := by
  rcases close_cases s m now with h | ⟨r, h⟩ <;> rw [h]
  rw [ensure_motions]
  exact updateMotionStatus_filter_other s .Closed m.id i hne

/-- The close step preserves every existing notification row. -/
theorem close_notif_mem (s : DB) (m : Motion) (now : Int) (n : NotifRow)
    (hn : n ∈ s.notifications) :
    n ∈ (closeMotionIfEligible s m now).1.notifications := by
  rcases close_cases s m now with h | ⟨r, h⟩ <;> rw [h]
  · exact hn
  · exact ensure_notif_mem _ m.id now n hn

/-- The close step preserves any already-true notification predicate. -/
theorem close_any_mono (s : DB) (m : Motion) (now : Int) (p : NotifRow → Bool)
    (h : s.notifications.any p = true) :
    (closeMotionIfEligible s m now).1.notifications.any p = true := by
  rcases close_cases s m now with hc | ⟨r, hc⟩ <;> rw [hc]
  · exact h
  · exact ensure_any_mono _ m.id now p h

/-- The close step preserves the at-most-one-outbox-row bound. -/
theorem close_countP_le_one (s : DB) (m : Motion) (now : Int) (i : Nat)
    (hle : s.notifications.countP (fun n => n.motion_id == i) ≤ 1) :
    (closeMotionIfEligible s m now).1.notifications.countP
      (fun n => n.motion_id == i) ≤ 1 := by
  rcases close_cases s m now with hc | ⟨r, hc⟩ <;> rw [hc]
  · exact hle
  · exact ensure_countP_le_one _ m.id now i hle

/-- Generic preservation of a store property along a fold. -/
theorem foldl_pres {α : Type} (P : DB → Prop) (g : DB → α → DB)
    (l : List α) (st : DB) (h : P st)
    (hg : ∀ acc a, a ∈ l → P acc → P (g acc a)) :
    P (l.foldl g st) := by
  induction l generalizing st with
  | nil => exact h
  | cons a rest ih =>
    exact ih (g st a) (hg st a (by simp) h)
      (fun acc b hb hP => hg acc b (by simp [hb]) hP)

/-- The sweep never touches the tokens table. -/
theorem sweep_tokens (s : DB) (now : Int) (fails : Nat → Bool) :
    (sweepAndEnqueueCompletedMotions s now fails).tokens = s.tokens := by
  unfold sweepAndEnqueueCompletedMotions
  refine foldl_pres (fun st => st.tokens = s.tokens) _ _ _ ?_ ?_
  · refine foldl_pres (fun st => st.tokens = s.tokens) _ _ _ rfl ?_
    intro acc a ha hP
    by_cases hf : fails a.id = true
    · rw [if_pos hf]
      exact hP
    · rw [if_neg hf]
      rw [close_tokens]
      exact hP
  · intro acc a ha hP
    by_cases hf : fails a.id = true
    · rw [if_pos hf]
      exact hP
    · rw [if_neg hf]
      rw [ensure_tokens]
      exact hP

/-- The sweep never touches the ballots table. -/
theorem sweep_ballots (s : DB) (now : Int) (fails : Nat → Bool) :
    (sweepAndEnqueueCompletedMotions s now fails).ballots = s.ballots := by
  unfold sweepAndEnqueueCompletedMotions
  refine foldl_pres (fun st => st.ballots = s.ballots) _ _ _ ?_ ?_
  · refine foldl_pres (fun st => st.ballots = s.ballots) _ _ _ rfl ?_
    intro acc a ha hP
    by_cases hf : fails a.id = true
    · rw [if_pos hf]
      exact hP
    · rw [if_neg hf]
      rw [close_ballots]
      exact hP
  · intro acc a ha hP
    by_cases hf : fails a.id = true
    · rw [if_pos hf]
      exact hP
    · rw [if_neg hf]
      rw [ensure_ballots]
      exact hP

/-- The sweep preserves the at-most-one-outbox-row bound for every id. -/
theorem sweep_countP_le_one (s : DB) (now : Int) (fails : Nat → Bool) (i : Nat)
    (hle : s.notifications.countP (fun n => n.motion_id == i) ≤ 1) :
    (sweepAndEnqueueCompletedMotions s now fails).notifications.countP
      (fun n => n.motion_id == i) ≤ 1 := by
  unfold sweepAndEnqueueCompletedMotions
  refine foldl_pres
    (fun st => st.notifications.countP (fun n => n.motion_id == i) ≤ 1)
    _ _ _ ?_ ?_
  · refine foldl_pres
      (fun st => st.notifications.countP (fun n => n.motion_id == i) ≤ 1)
      _ _ _ hle ?_
    intro acc a ha hP
    by_cases hf : fails a.id = true
    · rw [if_pos hf]
      exact hP
    · rw [if_neg hf]
      exact close_countP_le_one acc a now i hP
  · intro acc a ha hP
    by_cases hf : fails a.id = true
    · rw [if_pos hf]
      exact hP
    · rw [if_neg hf]
      exact ensure_countP_le_one acc a.id now i hP

/-- The sweep preserves every motion row whose id hosts no Open row. -/
theorem sweep_filter_other (s : DB) (now : Int) (fails : Nat → Bool) (i : Nat)
    (hopenids : ∀ mm ∈ s.motions.filter
      (fun m => m.status == MotionStatus.Open), mm.id ≠ i) :
    (sweepAndEnqueueCompletedMotions s now fails).motions.filter
      (fun x => x.id == i) = s.motions.filter (fun x => x.id == i) := by
  unfold sweepAndEnqueueCompletedMotions
  refine foldl_pres
    (fun st => st.motions.filter (fun x => x.id == i) =
      s.motions.filter (fun x => x.id == i)) _ _ _ ?_ ?_
  · refine foldl_pres
      (fun st => st.motions.filter (fun x => x.id == i) =
        s.motions.filter (fun x => x.id == i)) _ _ _ rfl ?_
    intro acc a ha hP
    by_cases hf : fails a.id = true
    · rw [if_pos hf]
      exact hP
    · rw [if_neg hf]
      rw [close_filter_other acc a now i (hopenids a ha)]
      exact hP
  · intro acc a ha hP
    by_cases hf : fails a.id = true
    · rw [if_pos hf]
      exact hP
    · rw [if_neg hf]
      rw [ensure_motions]
      exact hP

/-- The sweep preserves an already-true notification predicate. -/
theorem sweep_any_mono (s : DB) (now : Int) (fails : Nat → Bool)
    (p : NotifRow → Bool) (h : s.notifications.any p = true) :
    (sweepAndEnqueueCompletedMotions s now fails).notifications.any p = true := by
  unfold sweepAndEnqueueCompletedMotions
  refine foldl_pres (fun st => st.notifications.any p = true) _ _ _ ?_ ?_
  · refine foldl_pres (fun st => st.notifications.any p = true) _ _ _ h ?_
    intro acc a ha hP
    by_cases hf : fails a.id = true
    · rw [if_pos hf]
      exact hP
    · rw [if_neg hf]
      exact close_any_mono acc a now p hP
  · intro acc a ha hP
    by_cases hf : fails a.id = true
    · rw [if_pos hf]
      exact hP
    · rw [if_neg hf]
      exact ensure_any_mono acc a.id now p hP

/-- The backfill loop of the sweep never touches the motions table. -/
theorem fold2_motions (l : List Motion) (st : DB) (now : Int)
    (fails : Nat → Bool) :
    (l.foldl (fun acc m => if fails m.id then acc
      else ensureResultsEmailNotification acc m.id now) st).motions =
      st.motions := by
  refine foldl_pres (fun acc => acc.motions = st.motions) _ _ _ rfl ?_
  intro acc a ha hP
  by_cases hf : fails a.id = true
  · rw [if_pos hf]
    exact hP
  · rw [if_neg hf]
    rw [ensure_motions]
    exact hP

/-- After the backfill loop, every non-failing listed motion has an
outbox row. -/
theorem fold2_ensures (l : List Motion) (st : DB) (now : Int)
    (fails : Nat → Bool) (mm : Motion) (hmm : mm ∈ l)
    (hf : fails mm.id = false) :
    (l.foldl (fun acc m => if fails m.id then acc
      else ensureResultsEmailNotification acc m.id now) st).notifications.any
      (fun n => n.motion_id == mm.id) = true := by
  induction l generalizing st with
  | nil => cases hmm
  | cons a rest ih =>
    rcases List.mem_cons.mp hmm with heq | hmem
    · subst heq
      show (rest.foldl _ (if fails mm.id then st
        else ensureResultsEmailNotification st mm.id now)).notifications.any _ = true
      rw [if_neg (by simp [hf])]
      refine foldl_pres
        (fun acc => acc.notifications.any (fun n => n.motion_id == mm.id) = true)
        _ _ _ (ensure_any_self st mm.id now) ?_
      intro acc b hb hP
      by_cases hfb : fails b.id = true
      · rw [if_pos hfb]
        exact hP
      · rw [if_neg hfb]
        exact ensure_any_mono acc b.id now _ hP
    · exact ih _ hmem

/-- A time-expired Open motion commits its close: the status update and
the enqueue are performed together. -/
theorem close_commits_of_time (s : DB) (m : Motion) (now : Int)
    (hopen : m.status = .Open) (ht : now ≥ m.close_at) :
    (closeMotionIfEligible s m now).1 =
      ensureResultsEmailNotification
        (updateMotionStatus s .Closed m.id) m.id now := by
  unfold closeMotionIfEligible
  rw [if_neg (by simp [hopen])]
  dsimp only
  rw [if_neg (by simp [ht])]

/-- Along the first sweep loop, a non-failing Open motion whose close
time has passed gets closed and its outbox row ensured, whatever happens
to the other motions in the same sweep. -/
theorem fold1_closes_time (l : List Motion) (st : DB) (now : Int)
    (fails : Nat → Bool) (B : Motion) (hmem : B ∈ l)
    (hids : (l.map Motion.id).Nodup)
    (hfB : fails B.id = false) (hBopen : B.status = .Open)
    (htime : now ≥ B.close_at)
    (hfilter : st.motions.filter (fun x => x.id == B.id) = [B]) :
    (l.foldl (fun acc m => if fails m.id then acc
        else (closeMotionIfEligible acc m now).1) st).motions.filter
      (fun x => x.id == B.id) = [{ B with status := .Closed }] ∧
    (l.foldl (fun acc m => if fails m.id then acc
        else (closeMotionIfEligible acc m now).1) st).notifications.any
      (fun n => n.motion_id == B.id) = true := by
  obtain ⟨l1, l2, rfl⟩ := List.append_of_mem hmem
  have hmapids : ((l1 ++ B :: l2).map Motion.id) =
      l1.map Motion.id ++ B.id :: l2.map Motion.id := by simp
  rw [hmapids] at hids
  have hdisj := List.disjoint_of_nodup_append hids
  have hl1 : ∀ y ∈ l1, y.id ≠ B.id := by
    intro y hy hcontra
    exact hdisj (List.mem_map_of_mem Motion.id hy)
      (by rw [hcontra]; exact List.mem_cons_self _ _)
  have hl2 : ∀ y ∈ l2, y.id ≠ B.id := by
    intro y hy hcontra
    have hnodup2 := (List.Nodup.of_append_right hids)
    have hnotmem := (List.nodup_cons.mp hnodup2).1
    exact hnotmem (hcontra ▸ List.mem_map_of_mem Motion.id hy)
  rw [List.foldl_append]
  have hst1 : ((l1.foldl (fun acc m => if fails m.id then acc
      else (closeMotionIfEligible acc m now).1) st).motions.filter
      (fun x => x.id == B.id)) = [B] := by
    refine foldl_pres
      (fun acc => acc.motions.filter (fun x => x.id == B.id) = [B])
      _ _ _ hfilter ?_
    intro acc a ha hP
    by_cases hf : fails a.id = true
    · rw [if_pos hf]
      exact hP
    · rw [if_neg hf]
      rw [close_filter_other acc a now B.id (hl1 a ha)]
      exact hP
  rw [List.foldl_cons]
  have hstep : (if fails B.id then
      (l1.foldl (fun acc m => if fails m.id then acc
        else (closeMotionIfEligible acc m now).1) st)
    else (closeMotionIfEligible
      (l1.foldl (fun acc m => if fails m.id then acc
        else (closeMotionIfEligible acc m now).1) st) B now).1) =
      ensureResultsEmailNotification
        (updateMotionStatus
          (l1.foldl (fun acc m => if fails m.id then acc
            else (closeMotionIfEligible acc m now).1) st)
          .Closed B.id) B.id now := by
    rw [if_neg (by simp [hfB])]
    exact close_commits_of_time _ B now hBopen htime
  rw [hstep]
  have hP0 : (ensureResultsEmailNotification
      (updateMotionStatus
        (l1.foldl (fun acc m => if fails m.id then acc
          else (closeMotionIfEligible acc m now).1) st)
        .Closed B.id) B.id now).motions.filter (fun x => x.id == B.id) =
      [{ B with status := .Closed }] := by
    rw [ensure_motions, updateMotionStatus_filter_self, hst1]
    rfl
  have hQ0 : (ensureResultsEmailNotification
      (updateMotionStatus
        (l1.foldl (fun acc m => if fails m.id then acc
          else (closeMotionIfEligible acc m now).1) st)
        .Closed B.id) B.id now).notifications.any
      (fun n => n.motion_id == B.id) = true :=
    ensure_any_self _ B.id now
  have := foldl_pres
    (fun acc => acc.motions.filter (fun x => x.id == B.id) =
        [{ B with status := .Closed }] ∧
      acc.notifications.any (fun n => n.motion_id == B.id) = true)
    (fun acc m => if fails m.id then acc
      else (closeMotionIfEligible acc m now).1) l2 _ ⟨hP0, hQ0⟩ ?_
  · exact this
  · intro acc a ha hP
    dsimp only
    by_cases hf : fails a.id = true
    · rw [if_pos hf]
      exact hP
    · rw [if_neg hf]
      exact ⟨by rw [close_filter_other acc a now B.id (hl2 a ha)]; exact hP.1,
        close_any_mono acc a now _ hP.2⟩

/-- One sweep leaves a non-Open motion's rows, the ballots, the tokens
and its outbox-row bound untouched. -/
theorem sweep_nonopen_preserved (s : DB) (m : Motion) (now : Int)
    (fails : Nat → Bool)
    (hrows : s.motions.filter (fun x => x.id == m.id) = [m])
    (hnot : m.status ≠ .Open)
    (hcnt : s.notifications.countP (fun n => n.motion_id == m.id) ≤ 1) :
    (sweepAndEnqueueCompletedMotions s now fails).motions.filter
      (fun x => x.id == m.id) = [m] ∧
    (sweepAndEnqueueCompletedMotions s now fails).tokens = s.tokens ∧
    (sweepAndEnqueueCompletedMotions s now fails).ballots = s.ballots ∧
    (sweepAndEnqueueCompletedMotions s now fails).notifications.countP
      (fun n => n.motion_id == m.id) ≤ 1 := by
  have hopenids : ∀ mm ∈ s.motions.filter
      (fun x => x.status == MotionStatus.Open), mm.id ≠ m.id := by
    intro mm hmmf hcontra
    have hmm1 := List.mem_filter.mp hmmf
    have hmm2 : mm ∈ s.motions.filter (fun x => x.id == m.id) :=
      List.mem_filter.mpr ⟨hmm1.1, by simp [hcontra]⟩
    rw [hrows] at hmm2
    have hmmeq : mm = m := by simpa using hmm2
    apply hnot
    rw [← hmmeq]
    simpa using hmm1.2
  refine ⟨?_, sweep_tokens s now fails, sweep_ballots s now fails,
    sweep_countP_le_one s now fails m.id hcnt⟩
  rw [sweep_filter_other s now fails m.id hopenids]
  exact hrows

/-- In a motions table with pairwise-distinct ids, filtering by a present
motion's id yields exactly that row. -/
theorem filter_id_eq_single (l : List Motion) (B : Motion)
    (hids : (l.map Motion.id).Nodup) (hmem : B ∈ l) :
    l.filter (fun x => x.id == B.id) = [B] := by
  induction l with
  | nil => cases hmem
  | cons a as ih =>
    rw [List.map_cons, List.nodup_cons] at hids
    rcases List.mem_cons.mp hmem with heq | hmem2
    · subst heq
      rw [List.filter_cons_of_pos (by simp)]
      have hnil : as.filter (fun x => x.id == B.id) = [] := by
        rw [List.filter_eq_nil_iff]
        intro y hy hcontra
        exact hids.1 (by
          have hyid : y.id = B.id := by simpa using hcontra
          exact hyid ▸ List.mem_map_of_mem Motion.id hy)
      rw [hnil]
    · have hane : a.id ≠ B.id := fun hc =>
        hids.1 (hc ▸ List.mem_map_of_mem Motion.id hmem2)
      rw [List.filter_cons_of_neg (by simp [hane])]
      exact ih hids.2 hmem2

/-- C2: the Open-to-Closed update and the outbox enqueue of a motion the
sweep decides to close are two effects of one per-motion transaction: a
close that reports a reason leaves the motion Closed with an outbox row
present, a close that reports no change leaves the store untouched (so a
rolled-back transaction cannot strand a Closed motion without its
enqueue), the close step writes nothing but that motion's row and its
outbox row, every non-failing Closed or Published motion of the swept
store ends up with an outbox row, and a non-failing time-expired Open
motion is closed and enqueued by the sweep regardless of errors on any
other motion. -/
theorem sweep_atomic_close_isolated
    (s : DB) (m : Motion) (now : Int) (r : CloseReason) (x : Motion)
    (h2 : (closeMotionIfEligible s m now).2 = some r)
    (hx : getMotionById s m.id = some x)
    (sB : DB) (nowB : Int) (failsB : Nat → Bool) (mm B : Motion)
    (hmm : mm ∈ (sweepAndEnqueueCompletedMotions sB nowB failsB).motions)
    (hmmst : mm.status = .Closed ∨ mm.status = .Published)
    (hmmf : failsB mm.id = false)
    (hidsB : (sB.motions.map Motion.id).Nodup)
    (hBmem : B ∈ sB.motions) (hBopen : B.status = .Open)
    (hBf : failsB B.id = false) (hBtime : nowB ≥ B.close_at) :
    (getMotionById (closeMotionIfEligible s m now).1 m.id =
        some { x with status := .Closed } ∧
      (closeMotionIfEligible s m now).1.notifications.any
        (fun n => n.motion_id == m.id) = true) ∧
    ((closeMotionIfEligible s m now).1.tokens = s.tokens ∧
      (closeMotionIfEligible s m now).1.ballots = s.ballots ∧
      (∀ i, m.id ≠ i →
        (closeMotionIfEligible s m now).1.motions.filter
          (fun y => y.id == i) = s.motions.filter (fun y => y.id == i)) ∧
      (∀ n ∈ s.notifications,
        n ∈ (closeMotionIfEligible s m now).1.notifications)) ∧
    (∀ s2 m2 now2, (closeMotionIfEligible s2 m2 now2).2 = none →
      (closeMotionIfEligible s2 m2 now2).1 = s2) ∧
    (sweepAndEnqueueCompletedMotions sB nowB failsB).notifications.any
      (fun n => n.motion_id == mm.id) = true ∧
    ((sweepAndEnqueueCompletedMotions sB nowB failsB).motions.filter
        (fun y => y.id == B.id) = [{ B with status := .Closed }] ∧
      (sweepAndEnqueueCompletedMotions sB nowB failsB).notifications.any
        (fun n => n.motion_id == B.id) = true) := by
  refine ⟨?_, ⟨close_tokens s m now, close_ballots s m now,
      fun i hi => close_filter_other s m now i hi,
      fun n hn => close_notif_mem s m now n hn⟩, ?_, ?_, ?_⟩
  · rcases close_cases s m now with hc | ⟨r2, hc⟩
    · rw [hc] at h2
      exact absurd h2 (by simp)
    · rw [hc]
      constructor
      · rw [getMotionById_ensure, getMotionById_update, hx]
        rfl
      · exact ensure_any_self _ m.id now
  · intro s2 m2 now2 hnone
    rcases close_cases s2 m2 now2 with hc2 | ⟨r2, hc2⟩
    · rw [hc2]
    · rw [hc2] at hnone
      exact absurd hnone (by simp)
  · unfold sweepAndEnqueueCompletedMotions at hmm ⊢
    rw [fold2_motions] at hmm
    refine fold2_ensures _ _ nowB failsB mm ?_ hmmf
    refine List.mem_filter.mpr ⟨hmm, ?_⟩
    rcases hmmst with hst | hst <;> simp [hst]
  · unfold sweepAndEnqueueCompletedMotions
    have hmemf : B ∈ sB.motions.filter
        (fun x => x.status == MotionStatus.Open) :=
      List.mem_filter.mpr ⟨hBmem, by simp [hBopen]⟩
    have hidsf : ((sB.motions.filter
        (fun x => x.status == MotionStatus.Open)).map Motion.id).Nodup :=
      List.Nodup.sublist
        (List.Sublist.map Motion.id (List.filter_sublist _)) hidsB
    have hfilter0 : sB.motions.filter (fun x => x.id == B.id) = [B] :=
      filter_id_eq_single sB.motions B hidsB hBmem
    obtain ⟨hcl, hany⟩ := fold1_closes_time
      (sB.motions.filter (fun x => x.status == MotionStatus.Open))
      sB nowB failsB B hmemf hidsf hBf hBopen hBtime hfilter0
    constructor
    · rw [fold2_motions]
      exact hcl
    · refine foldl_pres
        (fun acc => acc.notifications.any
          (fun n => n.motion_id == B.id) = true) _ _ _ hany ?_
      intro acc a ha hP
      by_cases hf : failsB a.id = true
      · rw [if_pos hf]
        exact hP
      · rw [if_neg hf]
        exact ensure_any_mono acc a.id nowB _ hP

/-- Witness for C2: a store whose motion 1 is closed by time (close
reports end_time_reached, leaves it Closed with an outbox row), and a
three-motion sweep where motion 1's transaction fails, the time-expired
motion 2 is still closed and enqueued, and the already-Closed motion 3
gets its backfill row. -/
theorem sweep_atomic_close_isolated_witness :
    getMotionById (closeMotionIfEligible
      ⟨[⟨1, "t", ["Yes", "No"], 0, 100, .Open, .Simple, none⟩], [], [], []⟩
      ⟨1, "t", ["Yes", "No"], 0, 100, .Open, .Simple, none⟩ 200).1 1 =
      some ⟨1, "t", ["Yes", "No"], 0, 100, .Closed, .Simple, none⟩ ∧
    (sweepAndEnqueueCompletedMotions
      ⟨[⟨1, "a", ["Yes", "No"], 0, 100, .Open, .Simple, none⟩,
        ⟨2, "b", ["Yes", "No"], 0, 100, .Open, .Simple, none⟩,
        ⟨3, "c", ["Yes", "No"], 0, 100, .Closed, .Simple, none⟩], [], [], []⟩
      200 (fun i => i == 1)).notifications.any
      (fun n => n.motion_id == 3) = true ∧
    (sweepAndEnqueueCompletedMotions
      ⟨[⟨1, "a", ["Yes", "No"], 0, 100, .Open, .Simple, none⟩,
        ⟨2, "b", ["Yes", "No"], 0, 100, .Open, .Simple, none⟩,
        ⟨3, "c", ["Yes", "No"], 0, 100, .Closed, .Simple, none⟩], [], [], []⟩
      200 (fun i => i == 1)).motions.filter (fun y => y.id == 2) =
      [⟨2, "b", ["Yes", "No"], 0, 100, .Closed, .Simple, none⟩] := by
  have h := sweep_atomic_close_isolated
    ⟨[⟨1, "t", ["Yes", "No"], 0, 100, .Open, .Simple, none⟩], [], [], []⟩
    ⟨1, "t", ["Yes", "No"], 0, 100, .Open, .Simple, none⟩ 200
    .end_time_reached
    ⟨1, "t", ["Yes", "No"], 0, 100, .Open, .Simple, none⟩
    (by decide) (by decide)
    ⟨[⟨1, "a", ["Yes", "No"], 0, 100, .Open, .Simple, none⟩,
      ⟨2, "b", ["Yes", "No"], 0, 100, .Open, .Simple, none⟩,
      ⟨3, "c", ["Yes", "No"], 0, 100, .Closed, .Simple, none⟩], [], [], []⟩
    200 (fun i => i == 1)
    ⟨3, "c", ["Yes", "No"], 0, 100, .Closed, .Simple, none⟩
    ⟨2, "b", ["Yes", "No"], 0, 100, .Open, .Simple, none⟩
    (by decide) (Or.inl rfl) (by decide) (by decide) (by decide) rfl
    (by decide) (by decide)
  exact ⟨h.1.1, h.2.2.2.1, h.2.2.2.2.1⟩

/-- C7: running the completion sweep any number of times over a store
whose motion with a given id is not Open — in particular already Closed —
never changes that motion's row (status and outcome included), never
changes any ballot or token, and never produces a second notification row
for it: the Open-only filter skips it and the backfill ensure is
idempotent. -/
theorem sweep_idempotent_on_nonopen
    (s : DB) (m : Motion) (now : Int) (fails : Nat → Bool) (k : Nat)
    (hrows : s.motions.filter (fun x => x.id == m.id) = [m])
    (hnot : m.status ≠ .Open)
    (hcnt : s.notifications.countP (fun n => n.motion_id == m.id) ≤ 1) :
    ((fun st => sweepAndEnqueueCompletedMotions st now fails)^[k] s).motions.filter
      (fun x => x.id == m.id) = [m] ∧
    ((fun st => sweepAndEnqueueCompletedMotions st now fails)^[k] s).tokens =
      s.tokens ∧
    ((fun st => sweepAndEnqueueCompletedMotions st now fails)^[k] s).ballots =
      s.ballots ∧
    ((fun st => sweepAndEnqueueCompletedMotions st now fails)^[k]
      s).notifications.countP (fun n => n.motion_id == m.id) ≤ 1 := by
  induction k with
  | zero => exact ⟨hrows, rfl, rfl, hcnt⟩
  | succ n ih =>
    obtain ⟨h1, h2, h3, h4⟩ := ih
    rw [Function.iterate_succ_apply']
    obtain ⟨g1, g2, g3, g4⟩ := sweep_nonopen_preserved
      ((fun st => sweepAndEnqueueCompletedMotions st now fails)^[n] s)
      m now fails h1 hnot h4
    exact ⟨g1, g2.trans h2, g3.trans h3, g4⟩

/-- Witness for C7: three sweeps over a store whose only motion is Closed
with one outbox row leave the motion row, ballots, tokens and the row
count unchanged. -/
theorem sweep_idempotent_on_nonopen_witness :
    ((fun st => sweepAndEnqueueCompletedMotions st 200 (fun _ => false))^[3]
      ⟨[⟨1, "t", ["Yes", "No"], 0, 100, .Closed, .Simple, some .Passed⟩],
       [⟨5, 1, "tok", none, .Used, some 50⟩], [⟨1, 5, "Yes", 50⟩],
       [⟨0, 1, .Pending, 0, 100, none⟩]⟩).motions.filter
      (fun x => x.id == 1) =
      [⟨1, "t", ["Yes", "No"], 0, 100, .Closed, .Simple, some .Passed⟩] ∧
    ((fun st => sweepAndEnqueueCompletedMotions st 200 (fun _ => false))^[3]
      ⟨[⟨1, "t", ["Yes", "No"], 0, 100, .Closed, .Simple, some .Passed⟩],
       [⟨5, 1, "tok", none, .Used, some 50⟩], [⟨1, 5, "Yes", 50⟩],
       [⟨0, 1, .Pending, 0, 100, none⟩]⟩).ballots = [⟨1, 5, "Yes", 50⟩] ∧
    ((fun st => sweepAndEnqueueCompletedMotions st 200 (fun _ => false))^[3]
      ⟨[⟨1, "t", ["Yes", "No"], 0, 100, .Closed, .Simple, some .Passed⟩],
       [⟨5, 1, "tok", none, .Used, some 50⟩], [⟨1, 5, "Yes", 50⟩],
       [⟨0, 1, .Pending, 0, 100, none⟩]⟩).notifications.countP
      (fun n => n.motion_id == 1) ≤ 1 := by
  have h := sweep_idempotent_on_nonopen
    ⟨[⟨1, "t", ["Yes", "No"], 0, 100, .Closed, .Simple, some .Passed⟩],
     [⟨5, 1, "tok", none, .Used, some 50⟩], [⟨1, 5, "Yes", 50⟩],
     [⟨0, 1, .Pending, 0, 100, none⟩]⟩
    ⟨1, "t", ["Yes", "No"], 0, 100, .Closed, .Simple, some .Passed⟩
    200 (fun _ => false) 3 (by decide) (by decide) (by decide)
  exact ⟨h.1, h.2.2.1, h.2.2.2⟩

end StrataVote
